import Mathlib

/-!
Verification development for the youtube-converter backend (`src/server.js`).

The repository file `src/server.js` contains three variants of the same
Express server, separated by document markers:
* variant 1 (lines 1-160): awaited title fetch, yt-dlp piped into ffmpeg,
  progress parsed from yt-dlp stderr via the regex `(\d{1,3}\.\d)%`;
* variant 2 (lines 161-354): background spawn of the pipeline, title fetch via
  `yt-dlp --get-title`, progress parsed via `\[download\]\s*(\d+\.?\d*)%`,
  an extra status value `"almost ready"` when progress exceeds 90;
* variant 3 (lines 355-639): puppeteer-based variant (only its format
  defaulting, identical to the other two, is needed by the claims).

We shallow-embed the job data model, the event handlers and the HTTP route
bodies of variants 1 and 2 as pure Lean functions over explicit system states,
with the asynchronous callbacks (process close, stderr data, client
disconnect, timers) modelled as events fed to a step function.  Numbers
produced by `parseFloat` on regex captures are modelled as rationals: every
capture of the two progress regexes is a finite decimal numeral, so its
`parseFloat` value is exact and order comparisons agree with the JS floats.
-/

/-- Character class of the JS regex `[^a-zA-Z0-9 ]` used for title
sanitization: `isKeepChar c` holds exactly for the characters that the
`replace` call keeps (ASCII letters, ASCII digits, space). -/
def isKeepChar (c : Char) : Bool :=
  (65 ≤ c.toNat && c.toNat ≤ 90) || (97 ≤ c.toNat && c.toNat ≤ 122) ||
    (48 ≤ c.toNat && c.toNat ≤ 57) || c.toNat = 32

/-- JS `\d`: an ASCII decimal digit. -/
def isDig (c : Char) : Bool := 48 ≤ c.toNat && c.toNat ≤ 57

/-- JS `\s` on the whitespace characters relevant here (space, tab, LF, VT,
FF, CR). -/
def isWS (c : Char) : Bool :=
  c.toNat = 32 || c.toNat = 9 || c.toNat = 10 || c.toNat = 11 ||
    c.toNat = 12 || c.toNat = 13

/-- Numeric value of a digit character. -/
def digitVal (c : Char) : Nat := c.toNat - 48

/-- Value of a digit string, most significant first (`parseFloat` integer
part). -/
def natOfDigits (l : List Char) : Nat :=
  l.foldl (fun a c => a * 10 + digitVal c) 0

/-- Variant 1 title sanitization (server.js line 36):
`title.replace(/[^a-zA-Z0-9 ]/g, "").substring(0, 50)`. -/
def sanitizeTitle (s : String) : String :=
  String.mk ((s.data.filter isKeepChar).take 50)

/-- Variant 2 title sanitization (server.js line 224):
`data.toString().trim().replace(/[^a-zA-Z0-9 ]/g, "").substring(0, 50)`. -/
def sanitizeTitle2 (s : String) : String :=
  String.mk ((s.trim.data.filter isKeepChar).take 50)

/-- Abstract outcome of `exec("yt-dlp -j url")` plus the JSON parse in
variant 1's `getTitle` (server.js lines 30-42): the callback either reports
an exec error, or `JSON.parse` fails, or parsing succeeds and `info.title`
is absent or a string. -/
inductive TitleFetchOutcome where
  | execError
  | parseError
  | parsed (title : Option String)
deriving DecidableEq, Repr

/-- Variant 1 `getTitle` (server.js lines 30-42): rejects on exec error or
JSON parse error; otherwise resolves
`info.title?.replace(/[^a-zA-Z0-9 ]/g, "").substring(0, 50) || "download"`
(an absent title or an empty sanitized string is falsy, yielding
`"download"`). -/
def getTitle : TitleFetchOutcome → Except Unit String
  | .execError => .error ()
  | .parseError => .error ()
  | .parsed none => .ok "download"
  | .parsed (some t) =>
      .ok (if sanitizeTitle t = "" then "download" else sanitizeTitle t)

/-- Variant 1 title computation in `/start-download` (server.js lines 62-67):
`let title = "download"; try { title = await getTitle(url) } catch { }`. -/
def fetchTitle (o : TitleFetchOutcome) : String :=
  match getTitle o with
  | .ok t => t
  | .error _ => "download"

/-- Variant 2 title computation (server.js lines 221-225): `title` starts as
`"download"` and is replaced by the sanitized stdout chunk if the
`yt-dlp --get-title` process produces one; `none` models a process that
produced no stdout data (spawn failure or non-zero exit with no output). -/
def fetchTitle2 : Option String → String
  | none => "download"
  | some s => sanitizeTitle2 s

/-- Format defaulting and normalization shared by all three variants
(server.js lines 51-52, 206-207, 522-523):
`const format = (reqFormat || "mp3").toLowerCase()`, where an absent
`format` field in the request body is `undefined`, hence falsy.
`toLowerCase` is modelled as the per-character lowercase map. -/
def normalizeFormat (reqFormat : Option String) : String :=
  String.mk ((reqFormat.getD "mp3").data.map Char.toLower)

/-- Format validation shared by all three variants (server.js lines 55, 209,
526): the normalized format must be `"mp3"` or `"mp4"`. -/
def isSupportedFormat (f : String) : Bool := f == "mp3" || f == "mp4"

/-! ## Progress regexes

Variant 1 (server.js line 116): `str.match(/(\d{1,3}\.\d)%/)`.  The JS engine
scans start positions left to right; at each position the greedy `\d{1,3}`
tries three digits, then two, then one, each followed by a literal dot, one
digit and `%`.  `parseFloat` of the capture is the exact decimal value. -/

/-- Match `\d{3}\.\d%` at the head of the list.  The capture `abc.d` has the
exact `parseFloat` value `(abc * 10 + d) / 10`. -/
def matchAt3 : List Char → Option ℚ
  | a :: b :: c :: '.' :: d :: '%' :: _ =>
      if isDig a && isDig b && isDig c && isDig d then
        some (mkRat (((digitVal a * 100 + digitVal b * 10 + digitVal c) * 10 + digitVal d : ℕ) : ℤ) 10)
      else none
  | _ => none

/-- Match `\d{2}\.\d%` at the head of the list. -/
def matchAt2 : List Char → Option ℚ
  | a :: b :: '.' :: d :: '%' :: _ =>
      if isDig a && isDig b && isDig d then
        some (mkRat (((digitVal a * 10 + digitVal b) * 10 + digitVal d : ℕ) : ℤ) 10)
      else none
  | _ => none

/-- Match `\d\.\d%` at the head of the list. -/
def matchAt1 : List Char → Option ℚ
  | a :: '.' :: d :: '%' :: _ =>
      if isDig a && isDig d then
        some (mkRat ((digitVal a * 10 + digitVal d : ℕ) : ℤ) 10)
      else none
  | _ => none

/-- Attempt the variant 1 pattern at one start position (greedy `{1,3}`:
three digits first, then two, then one). -/
def matchHere1 (l : List Char) : Option ℚ :=
  match matchAt3 l with
  | some q => some q
  | none =>
    match matchAt2 l with
    | some q => some q
    | none => matchAt1 l

/-- Variant 1 progress extraction: value of `parseFloat(match[1])` for the
leftmost match of `(\d{1,3}\.\d)%`, if any. -/
def matchProgress1 : List Char → Option ℚ
  | [] => none
  | c :: rest =>
    match matchHere1 (c :: rest) with
    | some q => some q
    | none => matchProgress1 rest

/-- The literal `[download]` required by variant 2's progress regex. -/
def dlLit : List Char := ['[', 'd', 'o', 'w', 'n', 'l', 'o', 'a', 'd', ']']

/-- Numeric tail of variant 2's regex `(\d+\.?\d*)%` with `parseFloat`
applied to the capture: one or more digits, an optional dot with zero or
more fraction digits, then `%`.  Greedy matching of this suffix is
equivalent to the backtracking JS engine here: shortening `\d+`/`\d*` or
dropping the optional dot always leaves a digit or a dot where `%` is
required. -/
def parseDecimal (l : List Char) : Option ℚ :=
  let ds := l.takeWhile isDig
  if ds.isEmpty then none
  else
    match l.dropWhile isDig with
    | '.' :: r2 =>
      (match r2.dropWhile isDig with
       | '%' :: _ =>
           let fs := r2.takeWhile isDig
           some (mkRat ((natOfDigits ds * 10 ^ fs.length + natOfDigits fs : ℕ) : ℤ) (10 ^ fs.length))
       | _ => none)
    | '%' :: _ => some (mkRat ((natOfDigits ds : ℕ) : ℤ) 1)
    | _ => none

/-- Variant 2 progress extraction (server.js line 265): value of
`parseFloat(match[1])` for the leftmost match of
`\[download\]\s*(\d+\.?\d*)%`, if any. -/
def matchProgress2 : List Char → Option ℚ
  | [] => none
  | c :: rest =>
    if dlLit.isPrefixOf (c :: rest) then
      match parseDecimal (((c :: rest).drop 10).dropWhile isWS) with
      | some q => some q
      | none => matchProgress2 rest
    else matchProgress2 rest

/-! ## Variant 1 job lifecycle

State of the variant 1 server restricted to one job id.  `listeners` is the
list of attached SSE observer sinks (in attachment order, as the
`EventEmitter` calls them), `delivered` the chronological log of writes
`res.write` performed on observer sinks, `kills` the chronological log of
`kill()` calls issued on subprocess handles.  After `jobs.delete`, the
handlers' closed-over job object is unreachable from every route and its
emitter has no listeners, so post-cleanup callback mutations are modelled as
no-ops. -/

/-- Variant 1 job record (server.js lines 59, 93-98): `title` and `format`
are stored at pipeline launch; `ytdlpSet`/`ffmpegSet` record that the process
handles are present on the record. -/
structure Job1 where
  status : String
  progress : ℚ
  error : Option String
  title : Option String
  format : Option String
  ytdlpSet : Bool
  ffmpegSet : Bool
deriving DecidableEq, Repr

/-- Payload written to an SSE observer in variant 1: the initial snapshot
(server.js line 133) carries `status`, `progress` and `error`; a live update
(line 119) carries `status` and `progress`. -/
inductive Update1 where
  | snapshot (status : String) (progress : ℚ) (error : Option String)
  | live (status : String) (progress : ℚ)
deriving DecidableEq, Repr

/-- Variant 1 server state for a single job id. -/
structure Sys1 where
  job : Option Job1
  listeners : List Nat
  delivered : List (Nat × Update1)
  kills : List String
deriving DecidableEq, Repr

/-- State right after `jobs.set(jobId, { emitter, status: "initializing",
progress: 0, error: null })` (server.js line 59). -/
def init1 : Sys1 :=
  { job := some
      { status := "initializing", progress := 0, error := none,
        title := none, format := none, ytdlpSet := false, ffmpegSet := false },
    listeners := [], delivered := [], kills := [] }

/-- Variant 1 `cleanupJob` (server.js lines 19-27): if the job is present,
remove all emitter listeners, kill each stored process handle, and delete
the record; otherwise do nothing. -/
def cleanupJob1 (s : Sys1) : Sys1 :=
  match s.job with
  | none => s
  | some j =>
    { job := none, listeners := [], delivered := s.delivered,
      kills := s.kills ++ (if j.ytdlpSet then ["ytdlp"] else []) ++
        (if j.ffmpegSet then ["ffmpeg"] else []) }

/-- The `emitter.emit("update", u)` of variant 1: each attached listener's
`res.write` appends the payload to the delivery log, in attachment order. -/
def broadcast1 (s : Sys1) (u : Update1) : Sys1 :=
  { s with delivered := s.delivered ++ s.listeners.map (fun o => (o, u)) }

/-- HTTP outcome of a route body, as far as the claims need it. -/
inductive HResp where
  | notFound
  | ok
deriving DecidableEq, Repr

/-- Variant 1 `GET /progress/:jobId` body (server.js lines 125-137) for a
fresh observer connection `o`: 404 when the id is not in the map; otherwise
write one snapshot of the current state, then attach the listener. -/
def progressGet1 (s : Sys1) (o : Nat) : Sys1 × HResp :=
  match s.job with
  | none => (s, .notFound)
  | some j =>
    ({ s with
        delivered := s.delivered ++ [(o, .snapshot j.status j.progress j.error)],
        listeners := s.listeners ++ [o] }, .ok)

/-- Variant 1 `GET /download/:jobId` body (server.js lines 145-153): 404
when the id is not in the map or no ffmpeg handle is stored. -/
def downloadGet1 (s : Sys1) : Sys1 × HResp :=
  match s.job with
  | none => (s, .notFound)
  | some j => if j.ffmpegSet then (s, .ok) else (s, .notFound)

/-- Rendering of the exit code in the JS template string
`ffmpeg failed with code ${code}`: a process killed by a signal closes with
`code === null`. -/
def codeStr : Option Int → String
  | none => "null"
  | some c => toString c

/-- Asynchronous events of the variant 1 server for one job. -/
inductive Ev1 where
  | launch (title : String) (format : String)
  | ffmpegClose (code : Option Int)
  | stderrData (chunk : String)
  | subscribe (o : Nat)
  | progressClose (o : Nat)
  | downloadClose
  | cleanupTimer
deriving DecidableEq, Repr

/-- Variant 1 event semantics.
* `launch` (server.js lines 83-98): the spawned handles, the awaited title
  and the format are stored on the record and `status` becomes
  `"downloading"`.
* `ffmpegClose code` (lines 104-111): code 0 sets `status = "complete"`;
  any other code or signal only sets
  `error = "ffmpeg failed with code " ++ code` — the status field is not
  touched and nothing is emitted.  Both branches schedule the 60 s cleanup
  timer, delivered later as `cleanupTimer`.
* `stderrData chunk` (lines 113-121): on a regex match, store the parsed
  progress and emit `{ status, progress }` to all listeners.
* `subscribe o` / `progressClose o` (lines 125-141): the SSE route body and
  its disconnect handler (`removeListener` only).
* `downloadClose` (line 155): client disconnect from `/download` runs
  `cleanupJob`.
* `cleanupTimer` (line 110): the deferred `cleanupJob`. -/
def step1 (s : Sys1) : Ev1 → Sys1
  | .launch title format =>
    match s.job with
    | none => s
    | some j =>
      let launched := { j with ytdlpSet := true, ffmpegSet := true, title := some title,
                               format := some format, status := "downloading" }
      { s with job := some launched }
  | .ffmpegClose code =>
    match s.job with
    | none => s
    | some j =>
      if code = some 0 then { s with job := some ({ j with status := "complete" }) }
      else
        let msg := "ffmpeg failed with code " ++ codeStr code
        { s with job := some ({ j with error := some msg }) }
  | .stderrData chunk =>
    match s.job with
    | none => s
    | some j =>
      match matchProgress1 chunk.data with
      | none => s
      | some q =>
        broadcast1 { s with job := some ({ j with progress := q }) } (.live j.status q)
  | .subscribe o => (progressGet1 s o).1
  | .progressClose o => { s with listeners := s.listeners.erase o }
  | .downloadClose => cleanupJob1 s
  | .cleanupTimer => cleanupJob1 s

/-- A run of the variant 1 server: fold the events over the state. -/
def run1 (s : Sys1) (evs : List Ev1) : Sys1 := evs.foldl step1 s

/-- The subsequence of the delivery log written to observer `o`. -/
def deliveredTo {α : Type} (o : Nat) (l : List (Nat × α)) : List α :=
  (l.filter (fun p => p.1 == o)).map Prod.snd

/-! ## Variant 2 job lifecycle

Variant 2 (server.js lines 161-354) creates the job record, spawns a
`yt-dlp --get-title` process whose close handler sets
`status = "processing"`, and launches the pipeline in the background without
ever setting `"downloading"`.  Its stderr handler sets
`status = "almost ready"` once parsed progress exceeds 90, its error and
close handlers record `error` without ever setting `status = "failed"`, and
its `/progress` disconnect handler runs the full `cleanupJob` whenever the
job is complete or has an error. -/

/-- Variant 2 job record (server.js line 218). -/
structure Job2 where
  status : String
  progress : ℚ
  error : Option String
  ytdlpSet : Bool
  ffmpegSet : Bool
deriving DecidableEq, Repr

/-- Payloads written to variant 2 SSE observers: the initial snapshot
(line 308), `{ status, progress }` (lines 232, 269), `{ status }`
(line 280), `{ error }` (lines 274-275, 283, 292). -/
inductive Update2 where
  | snapshot (status : String) (progress : ℚ) (error : Option String)
  | statusProgress (status : String) (progress : ℚ)
  | statusOnly (status : String)
  | errorOnly (error : String)
deriving DecidableEq, Repr

/-- Variant 2 server state for a single job id. -/
structure Sys2 where
  job : Option Job2
  listeners : List Nat
  delivered : List (Nat × Update2)
  kills : List String
deriving DecidableEq, Repr

/-- State right after `jobs.set(jobId, { emitter, status: "initializing",
progress: 0, error: null, ytdlp: null, ffmpeg: null })` (server.js
line 218). -/
def init2 : Sys2 :=
  { job := some
      { status := "initializing", progress := 0, error := none,
        ytdlpSet := false, ffmpegSet := false },
    listeners := [], delivered := [], kills := [] }

/-- Variant 2 `cleanupJob` (server.js lines 189-197), identical to
variant 1's. -/
def cleanupJob2 (s : Sys2) : Sys2 :=
  match s.job with
  | none => s
  | some j =>
    { job := none, listeners := [], delivered := s.delivered,
      kills := s.kills ++ (if j.ytdlpSet then ["ytdlp"] else []) ++
        (if j.ffmpegSet then ["ffmpeg"] else []) }

/-- Variant 2 `emitter.emit("update", u)`. -/
def broadcast2 (s : Sys2) (u : Update2) : Sys2 :=
  { s with delivered := s.delivered ++ s.listeners.map (fun o => (o, u)) }

/-- Variant 2 `GET /progress/:jobId` body (server.js lines 298-314): 404
when the id is unknown, otherwise one snapshot write followed by listener
attachment. -/
def progressGet2 (s : Sys2) (o : Nat) : Sys2 × HResp :=
  match s.job with
  | none => (s, .notFound)
  | some j =>
    ({ s with
        delivered := s.delivered ++ [(o, .snapshot j.status j.progress j.error)],
        listeners := s.listeners ++ [o] }, .ok)

/-- Variant 2 `GET /download/:jobId` body (server.js line 328): 404 when
the id is unknown or either process handle is missing. -/
def downloadGet2 (s : Sys2) : Sys2 × HResp :=
  match s.job with
  | none => (s, .notFound)
  | some j => if j.ytdlpSet && j.ffmpegSet then (s, .ok) else (s, .notFound)

/-- Asynchronous events of the variant 2 server for one job. -/
inductive Ev2 where
  | launch
  | titleClose
  | stderrData (chunk : String)
  | ytdlpError (msg : String)
  | ffmpegError (msg : String)
  | ffmpegClose (code : Option Int)
  | subscribe (o : Nat)
  | progressClose (o : Nat)
  | downloadClose
  | cleanupTimer
deriving DecidableEq, Repr

/-- Variant 2 event semantics.
* `launch` (server.js lines 248-260): the spawned handles are stored;
  `status` is not changed (variant 2 never sets `"downloading"`).
* `titleClose` (lines 226-234): the close handler of the
  `yt-dlp --get-title` process looks the job up and, if present,
  unconditionally sets `status = "processing"` and emits
  `{ status, progress }` — regardless of the current status.
* `stderrData chunk` (lines 263-272): on a regex match store the progress;
  if it exceeds 90 set `status = "almost ready"`; emit
  `{ status, progress }` with the updated fields.
* `ytdlpError` / `ffmpegError` (lines 274-275): spawn/runtime process
  errors set `error` and emit `{ error }`; `status` is not changed.
* `ffmpegClose code` (lines 277-287): code 0 sets `status = "complete"` and
  emits `{ status }`; any other code or signal sets
  `error = "Failed with code " ++ code` and emits `{ error }`, leaving
  `status` unchanged.  Both branches schedule the 60 s `cleanupTimer`.
* `subscribe o` / `progressClose o` (lines 298-321): the SSE route and its
  disconnect handler; the disconnect handler removes the listener and, when
  `job.status === "complete" || job.error`, runs the full `cleanupJob`.
* `downloadClose` (lines 347-349): disconnect from `/download` runs
  `cleanupJob`.
* `cleanupTimer` (line 286): the deferred `cleanupJob`. -/
def step2 (s : Sys2) : Ev2 → Sys2
  | .launch =>
    match s.job with
    | none => s
    | some j => { s with job := some ({ j with ytdlpSet := true, ffmpegSet := true }) }
  | .titleClose =>
    match s.job with
    | none => s
    | some j =>
      broadcast2 { s with job := some ({ j with status := "processing" }) }
        (.statusProgress "processing" j.progress)
  | .stderrData chunk =>
    match s.job with
    | none => s
    | some j =>
      match matchProgress2 chunk.data with
      | none => s
      | some q =>
        let st := if q > (90 : ℚ) then "almost ready" else j.status
        broadcast2 { s with job := some ({ j with progress := q, status := st }) }
          (.statusProgress st q)
  | .ytdlpError msg =>
    match s.job with
    | none => s
    | some j => broadcast2 { s with job := some ({ j with error := some msg }) } (.errorOnly msg)
  | .ffmpegError msg =>
    match s.job with
    | none => s
    | some j => broadcast2 { s with job := some ({ j with error := some msg }) } (.errorOnly msg)
  | .ffmpegClose code =>
    match s.job with
    | none => s
    | some j =>
      if code = some 0 then
        broadcast2 { s with job := some ({ j with status := "complete" }) }
          (.statusOnly "complete")
      else
        let msg := "Failed with code " ++ codeStr code
        broadcast2 { s with job := some ({ j with error := some msg }) } (.errorOnly msg)
  | .subscribe o => (progressGet2 s o).1
  | .progressClose o =>
    let s1 := { s with listeners := s.listeners.erase o }
    match s.job with
    | none => s1
    | some j =>
      if j.status == "complete" || j.error.isSome then cleanupJob2 s1 else s1
  | .downloadClose => cleanupJob2 s
  | .cleanupTimer => cleanupJob2 s

/-- A run of the variant 2 server. -/
def run2 (s : Sys2) (evs : List Ev2) : Sys2 := evs.foldl step2 s

/-! ## Registry and cleanup claims -/

/-- A state in which the job id was never created. -/
def emptySys1 : Sys1 := { job := none, listeners := [], delivered := [], kills := [] }

/-- A state in which the job id was never created (variant 2). -/
def emptySys2 : Sys2 := { job := none, listeners := [], delivered := [], kills := [] }

/-! ## Reachable status values and progress range (C8) -/

/-- Status strings that variant 1 handlers can store. -/
def chainStatus1 (x : String) : Bool :=
  x == "initializing" || x == "downloading" || x == "complete"

/-- Reachable-state predicate for variant 1 jobs: status among the values
the handlers assign, progress within the range the regex can produce. -/
def goodJob1 (j : Job1) : Bool :=
  chainStatus1 j.status && decide (0 ≤ j.progress) && decide (j.progress ≤ mkRat 9999 10)

/-- Status strings that variant 2 handlers can store. -/
def chainStatus2 (x : String) : Bool :=
  x == "initializing" || x == "processing" || x == "almost ready" || x == "complete"

/-- Reachable-state predicate for variant 2 jobs: the variant 2 regex value
is unbounded above, so only nonnegativity holds for progress. -/
def goodJob2 (j : Job2) : Bool :=
  chainStatus2 j.status && decide (0 ≤ j.progress)

/-! ## Status forward chain (C1) -/

/-- The status a lookup of the job id observes, if any. -/
def statusOf2 (s : Sys2) : Option String := s.job.map Job2.status

/-- The sequence of observable statuses along a run: the status before the
first event and after each event. -/
def statusTrace2 (s : Sys2) : List Ev2 → List (Option String)
  | [] => [statusOf2 s]
  | e :: evs => statusOf2 s :: statusTrace2 (step2 s e) evs

/-- Position of a variant 2 status in the forward chain
`initializing → processing → complete`. -/
def rank2 (x : String) : Nat :=
  if x == "initializing" then 0 else if x == "processing" then 1 else 2

/-- Forward step between two status strings: the rank never decreases and
`complete` is only followed by `complete`. -/
def fwdStr (x y : String) : Bool :=
  decide (rank2 x ≤ rank2 y) && (x != "complete" || y == "complete")

/-- Forward step of the observable status: a forward step of the status
strings, an evicted job stays evicted, and a job is never re-created. -/
def fwd2 (a b : Option String) : Bool :=
  match a, b with
  | none, none => true
  | none, some _ => false
  | some _, none => true
  | some x, some y => fwdStr x y

/-- Statuses on the variant 2 forward chain. -/
def chainFwd (x : String) : Bool :=
  x == "initializing" || x == "processing" || x == "complete"

/-- The sequence of status values an observer's sink received: the `status`
fields of the snapshot, `{ status, progress }` and `{ status }` payloads, in
delivery order (`{ error }` payloads carry no status). -/
def statusesOf2 : List Update2 → List String
  | [] => []
  | Update2.snapshot st _ _ :: rest => st :: statusesOf2 rest
  | Update2.statusProgress st _ :: rest => st :: statusesOf2 rest
  | Update2.statusOnly st :: rest => st :: statusesOf2 rest
  | Update2.errorOnly _ :: rest => statusesOf2 rest

/-- Delivery invariant of the variant 2 status machinery: the job's status
is on the forward chain, every observer's received status sequence is
forward-chained and on-chain, and the last status an observer received is a
forward step away from the job's current status (so later deliveries can
only move forward). -/
def dInv2 (s : Sys2) : Prop :=
  (∀ j, s.job = some j → chainFwd j.status = true) ∧
  (∀ o : Nat,
    List.Chain' (fun a b => fwdStr a b = true) (statusesOf2 (deliveredTo o s.delivered)) ∧
    (∀ x ∈ statusesOf2 (deliveredTo o s.delivered), chainFwd x = true) ∧
    (∀ j, s.job = some j → ∀ x,
      (statusesOf2 (deliveredTo o s.delivered)).getLast? = some x →
      fwdStr x j.status = true))

/-- An event whose progress report (if any) does not exceed 90, so that the
`"almost ready"` branch is not taken. -/
def stderrOK (e : Ev2) : Bool :=
  match e with
  | .stderrData chunk =>
    (match matchProgress2 chunk.data with
     | some q => decide (q ≤ (90 : ℚ))
     | none => true)
  | _ => true

/-- Recognizer for the title-resolution close event. -/
def isTitleClose : Ev2 → Bool
  | .titleClose => true
  | _ => false

/-- No title-resolution close event occurs after a successful transform
exit (the event sequence keeps the title fetch ahead of completion). -/
def noLateTitle : List Ev2 → Bool
  | [] => true
  | e :: rest =>
    match e with
    | Ev2.ffmpegClose c =>
      if c = some 0 then rest.all (fun x => !(isTitleClose x)) else noLateTitle rest
    | _ => noLateTitle rest

/-! ## Subscription semantics (C3) -/

/-- Recognizer for the initial snapshot payload. -/
def isSnap1 : Update1 → Bool
  | .snapshot _ _ _ => true
  | .live _ _ => false

/-- The write sequence of one observer starts with exactly one snapshot:
either nothing was written yet, or the first write is a snapshot and no
later write is one. -/
def snapshotFirstB : List Update1 → Bool
  | [] => true
  | u :: rest => isSnap1 u && rest.all (fun v => !(isSnap1 v))

/-- Observer ids of the subscribe events of a run, in order. -/
def subsOf1 : List Ev1 → List Nat
  | [] => []
  | Ev1.subscribe o :: rest => o :: subsOf1 rest
  | Ev1.launch _ _ :: rest => subsOf1 rest
  | Ev1.ffmpegClose _ :: rest => subsOf1 rest
  | Ev1.stderrData _ :: rest => subsOf1 rest
  | Ev1.progressClose _ :: rest => subsOf1 rest
  | Ev1.downloadClose :: rest => subsOf1 rest
  | Ev1.cleanupTimer :: rest => subsOf1 rest

/-- Delivery invariant of the variant 1 SSE machinery, relative to the set
of observers that will subscribe in the future: every observer's write
sequence is snapshot-first, attached observers have already received their
snapshot, and future subscribers have received nothing and are not yet
attached. -/
def obsInv1 (s : Sys1) (future : List Nat) : Prop :=
  (∀ o : Nat, snapshotFirstB (deliveredTo o s.delivered) = true) ∧
  (∀ o ∈ s.listeners, deliveredTo o s.delivered ≠ []) ∧
  (∀ o ∈ future, deliveredTo o s.delivered = [] ∧ o ∉ s.listeners)

/-! ## Theorems -/

theorem regexEval1 : matchProgress1 "x 12.3% done".data = some (mkRat 123 10) := by decide

theorem regexEval2 : matchProgress1 "999.9%".data = some (mkRat 9999 10) := by decide

theorem regexEval3 : matchProgress1 "1234.5%".data = some (mkRat 2345 10) := by decide

theorem regexEval4 : matchProgress1 "nothing".data = none := by decide

theorem regexEval5 : matchProgress2 "[download]  45.2% of 3MiB".data = some (mkRat 452 10) := by decide

theorem regexEval6 : matchProgress2 "[download] 150%".data = some (150 : ℚ) := by decide

theorem regexEval7 : matchProgress2 "45.2%".data = none := by decide

/-! ## Helper lemmas -/

theorem digitVal_le_of_isDig {c : Char} (h : isDig c = true) : digitVal c ≤ 9 := by
  simp [isDig] at h
  simp only [digitVal]
  omega

theorem mkRat_nonneg_nat (n d : ℕ) : (0 : ℚ) ≤ mkRat (n : ℤ) d := by
  rw [Rat.mkRat_eq_div]
  positivity

theorem mkRat_den10_le {n : ℕ} (h : n ≤ 9999) : mkRat (n : ℤ) 10 ≤ mkRat 9999 10 := by
  rw [Rat.mkRat_eq_div, Rat.mkRat_eq_div]
  gcongr
  exact_mod_cast h

theorem matchAt3_bounds {l : List Char} {q : ℚ} (h : matchAt3 l = some q) :
    0 ≤ q ∧ q ≤ mkRat 9999 10 := by
  rw [matchAt3.eq_def] at h
  split at h
  · split at h
    · rename_i hcond
      simp only [Bool.and_eq_true] at hcond
      obtain ⟨⟨⟨ha, hb⟩, hc⟩, hd⟩ := hcond
      have := digitVal_le_of_isDig ha
      have := digitVal_le_of_isDig hb
      have := digitVal_le_of_isDig hc
      have := digitVal_le_of_isDig hd
      cases h
      exact ⟨mkRat_nonneg_nat _ _, mkRat_den10_le (by omega)⟩
    · cases h
  · cases h

theorem matchAt2_bounds {l : List Char} {q : ℚ} (h : matchAt2 l = some q) :
    0 ≤ q ∧ q ≤ mkRat 9999 10 := by
  rw [matchAt2.eq_def] at h
  split at h
  · split at h
    · rename_i hcond
      simp only [Bool.and_eq_true] at hcond
      obtain ⟨⟨ha, hb⟩, hd⟩ := hcond
      have := digitVal_le_of_isDig ha
      have := digitVal_le_of_isDig hb
      have := digitVal_le_of_isDig hd
      cases h
      exact ⟨mkRat_nonneg_nat _ _, mkRat_den10_le (by omega)⟩
    · cases h
  · cases h

theorem matchAt1_bounds {l : List Char} {q : ℚ} (h : matchAt1 l = some q) :
    0 ≤ q ∧ q ≤ mkRat 9999 10 := by
  rw [matchAt1.eq_def] at h
  split at h
  · split at h
    · rename_i hcond
      simp only [Bool.and_eq_true] at hcond
      obtain ⟨ha, hd⟩ := hcond
      have := digitVal_le_of_isDig ha
      have := digitVal_le_of_isDig hd
      cases h
      exact ⟨mkRat_nonneg_nat _ _, mkRat_den10_le (by omega)⟩
    · cases h
  · cases h

/-- Every value extracted by the variant 1 regex `(\d{1,3}\.\d)%` lies in
`[0, 999.9]`. -/
theorem matchHere1_bounds {l : List Char} {q : ℚ} (h : matchHere1 l = some q) :
    0 ≤ q ∧ q ≤ mkRat 9999 10 := by
  rw [matchHere1] at h
  split at h
  · cases h; exact matchAt3_bounds ‹_›
  · split at h
    · cases h; exact matchAt2_bounds ‹_›
    · exact matchAt1_bounds h

/-- Leftmost-match bound for the variant 1 regex. -/
theorem matchProgress1_bounds :
    ∀ {l : List Char} {q : ℚ}, matchProgress1 l = some q → 0 ≤ q ∧ q ≤ mkRat 9999 10 := by
  intro l
  induction l with
  | nil => intro q h; simp [matchProgress1] at h
  | cons c rest ih =>
    intro q h
    simp only [matchProgress1] at h
    cases hm : matchHere1 (c :: rest) with
    | some q2 =>
      rw [hm] at h
      cases h
      exact matchHere1_bounds hm
    | none =>
      rw [hm] at h
      exact ih h

/-- Every value extracted by the numeric tail of the variant 2 regex is
nonnegative. -/
theorem parseDecimal_nonneg {l : List Char} {q : ℚ} (h : parseDecimal l = some q) : 0 ≤ q := by
  simp only [parseDecimal] at h
  split at h
  · cases h
  · split at h
    · split at h
      · cases h; exact mkRat_nonneg_nat _ _
      · cases h
    · cases h; exact mkRat_nonneg_nat _ _
    · cases h

/-- Leftmost-match nonnegativity for the variant 2 regex. -/
theorem matchProgress2_nonneg :
    ∀ {l : List Char} {q : ℚ}, matchProgress2 l = some q → 0 ≤ q := by
  intro l
  induction l with
  | nil => intro q h; simp [matchProgress2] at h
  | cons c rest ih =>
    intro q h
    simp only [matchProgress2] at h
    split at h
    · split at h
      · rename_i q2 hp
        cases h
        exact parseDecimal_nonneg hp
      · exact ih h
    · exact ih h

/-- Sanitized titles contain only kept characters (ASCII alphanumerics and
spaces). -/
theorem sanitizeTitle_all (s : String) : (sanitizeTitle s).data.all isKeepChar = true := by
  rw [List.all_eq_true]
  intro c hc
  exact List.of_mem_filter (List.mem_of_mem_take hc)

/-- Sanitized titles have at most 50 characters. -/
theorem sanitizeTitle_len (s : String) : (sanitizeTitle s).length ≤ 50 := by
  have h : (sanitizeTitle s).length = ((s.data.filter isKeepChar).take 50).length := rfl
  rw [h, List.length_take]
  exact min_le_left _ _

theorem sanitizeTitle2_all (s : String) : (sanitizeTitle2 s).data.all isKeepChar = true := by
  rw [List.all_eq_true]
  intro c hc
  exact List.of_mem_filter (List.mem_of_mem_take hc)

theorem sanitizeTitle2_len (s : String) : (sanitizeTitle2 s).length ≤ 50 := by
  have h : (sanitizeTitle2 s).length = ((s.trim.data.filter isKeepChar).take 50).length := rfl
  rw [h, List.length_take]
  exact min_le_left _ _

/-- C9: metadata resolution never raises to its caller (both title
computations are total functions into `String`); on exec error, JSON parse
error, missing `info.title` or a silent `--get-title` process the fixed
fallback `"download"` is returned; every resolved title is the source title
with all characters other than ASCII alphanumerics and spaces stripped and
truncated to at most 50 characters (variant 1 additionally falls back to
`"download"` when the sanitized title is empty, variant 2 first trims
whitespace); consequently every produced title consists of kept characters
only and has length at most 50. -/
theorem C9_title_resolution :
    (fetchTitle .execError = "download" ∧ fetchTitle .parseError = "download" ∧
      fetchTitle (.parsed none) = "download" ∧ fetchTitle2 none = "download") ∧
    (∀ t : String, fetchTitle (.parsed (some t)) = sanitizeTitle t ∨
      (sanitizeTitle t = "" ∧ fetchTitle (.parsed (some t)) = "download")) ∧
    (∀ d : String, fetchTitle2 (some d) = sanitizeTitle2 d) ∧
    (∀ o : TitleFetchOutcome,
      (fetchTitle o).data.all isKeepChar = true ∧ (fetchTitle o).length ≤ 50) ∧
    (∀ d : Option String,
      (fetchTitle2 d).data.all isKeepChar = true ∧ (fetchTitle2 d).length ≤ 50) := by
  refine ⟨⟨rfl, rfl, rfl, rfl⟩, ?_, fun d => rfl, ?_, ?_⟩
  · intro t
    by_cases hemp : sanitizeTitle t = ""
    · exact Or.inr ⟨hemp, by simp [fetchTitle, getTitle, hemp]⟩
    · exact Or.inl (by simp [fetchTitle, getTitle, hemp])
  · intro o
    cases o with
    | execError => exact ⟨by decide, by decide⟩
    | parseError => exact ⟨by decide, by decide⟩
    | parsed t =>
      cases t with
      | none => exact ⟨by decide, by decide⟩
      | some t =>
        by_cases hemp : sanitizeTitle t = ""
        · have h : fetchTitle (.parsed (some t)) = "download" := by
            simp [fetchTitle, getTitle, hemp]
          rw [h]
          exact ⟨by decide, by decide⟩
        · have h : fetchTitle (.parsed (some t)) = sanitizeTitle t := by
            simp [fetchTitle, getTitle, hemp]
          rw [h]
          exact ⟨sanitizeTitle_all t, sanitizeTitle_len t⟩
  · intro d
    cases d with
    | none => exact ⟨by decide, by decide⟩
    | some d => exact ⟨sanitizeTitle2_all d, sanitizeTitle2_len d⟩

/-- C10: a request body without a `format` field defaults to `"mp3"` and is
accepted, and the supplied format string is lowercased before validation, so
every case variant of `"mp3"`/`"mp4"` passes the format check. -/
theorem C10_format_defaulting :
    (normalizeFormat none = "mp3" ∧ isSupportedFormat (normalizeFormat none) = true) ∧
    (∀ s : String, normalizeFormat (some s) = String.mk (s.data.map Char.toLower)) ∧
    (∀ s : String,
      s.data.map Char.toLower = "mp3".data ∨ s.data.map Char.toLower = "mp4".data →
      isSupportedFormat (normalizeFormat (some s)) = true) := by
  refine ⟨⟨by decide, by decide⟩, fun s => rfl, fun s h => ?_⟩
  have hn : normalizeFormat (some s) = String.mk (s.data.map Char.toLower) := rfl
  rcases h with h | h <;>
    simp [isSupportedFormat, hn, h]

/-- Witness for C10 at the concrete case variants `"MP3"` and `"Mp4"`. -/
theorem C10_format_defaulting_witness :
    isSupportedFormat (normalizeFormat (some "MP3")) = true ∧
    isSupportedFormat (normalizeFormat (some "Mp4")) = true :=
  ⟨C10_format_defaulting.2.2 "MP3" (Or.inl (by decide)),
   C10_format_defaulting.2.2 "Mp4" (Or.inr (by decide))⟩

theorem cleanupJob1_job (s : Sys1) : (cleanupJob1 s).job = none := by
  cases h : s.job <;> simp [cleanupJob1, h]

theorem cleanupJob2_job (s : Sys2) : (cleanupJob2 s).job = none := by
  cases h : s.job <;> simp [cleanupJob2, h]

theorem cleanupJob1_of_none {s : Sys1} (h : s.job = none) : cleanupJob1 s = s := by
  simp [cleanupJob1, h]

theorem cleanupJob2_of_none {s : Sys2} (h : s.job = none) : cleanupJob2 s = s := by
  simp [cleanupJob2, h]

/-- C5: `cleanupJob` is idempotent in both variants that define it: a second
call finds the job absent and changes nothing — same final registry state
(job absent) and, by full-state equality, no second `kill()` and no error
(the function is total). -/
theorem C5_cleanup_idempotent :
    (∀ s : Sys1, cleanupJob1 (cleanupJob1 s) = cleanupJob1 s ∧ (cleanupJob1 s).job = none) ∧
    (∀ s : Sys2, cleanupJob2 (cleanupJob2 s) = cleanupJob2 s ∧ (cleanupJob2 s).job = none) :=
  ⟨fun s => ⟨cleanupJob1_of_none (cleanupJob1_job s), cleanupJob1_job s⟩,
   fun s => ⟨cleanupJob2_of_none (cleanupJob2_job s), cleanupJob2_job s⟩⟩

/-- C4: after `cleanupJob`, the job id resolves to nothing, both the
subscribe route and the download route answer 404 without touching the
state, and those answers coincide with the answers for an id that never
existed. -/
theorem C4_cleanup_not_found :
    ∀ (s : Sys1) (t : Sys2) (o : Nat),
      ((cleanupJob1 s).job = none ∧
        (progressGet1 (cleanupJob1 s) o).2 = HResp.notFound ∧
        (downloadGet1 (cleanupJob1 s)).2 = HResp.notFound ∧
        (progressGet1 (cleanupJob1 s) o).1 = cleanupJob1 s ∧
        (downloadGet1 (cleanupJob1 s)).1 = cleanupJob1 s ∧
        (progressGet1 (cleanupJob1 s) o).2 = (progressGet1 emptySys1 o).2 ∧
        (downloadGet1 (cleanupJob1 s)).2 = (downloadGet1 emptySys1).2) ∧
      ((cleanupJob2 t).job = none ∧
        (progressGet2 (cleanupJob2 t) o).2 = HResp.notFound ∧
        (downloadGet2 (cleanupJob2 t)).2 = HResp.notFound ∧
        (progressGet2 (cleanupJob2 t) o).1 = cleanupJob2 t ∧
        (downloadGet2 (cleanupJob2 t)).1 = cleanupJob2 t ∧
        (progressGet2 (cleanupJob2 t) o).2 = (progressGet2 emptySys2 o).2 ∧
        (downloadGet2 (cleanupJob2 t)).2 = (downloadGet2 emptySys2).2) := by
  intro s t o
  have h1 := cleanupJob1_job s
  have h2 := cleanupJob2_job t
  refine ⟨⟨h1, ?_, ?_, ?_, ?_, ?_, ?_⟩, ⟨h2, ?_, ?_, ?_, ?_, ?_, ?_⟩⟩ <;>
    simp [progressGet1, downloadGet1, progressGet2, downloadGet2, h1, h2, emptySys1, emptySys2]

/-- C6: a client disconnect from the `/download` route runs `cleanupJob`
unconditionally: with both process handles stored (as the route requires to
serve at all) and regardless of whether ffmpeg has exited, both subprocesses
are killed, the job is evicted, and the id subsequently answers 404
everywhere.  Stated for both variants that pipe yt-dlp into ffmpeg. -/
theorem C6_download_disconnect :
    (∀ (s : Sys1) (j : Job1) (o : Nat), s.job = some j →
      j.ytdlpSet = true → j.ffmpegSet = true →
      (step1 s Ev1.downloadClose).job = none ∧
      (step1 s Ev1.downloadClose).kills = s.kills ++ ["ytdlp", "ffmpeg"] ∧
      (progressGet1 (step1 s Ev1.downloadClose) o).2 = HResp.notFound ∧
      (downloadGet1 (step1 s Ev1.downloadClose)).2 = HResp.notFound) ∧
    (∀ (t : Sys2) (j : Job2) (o : Nat), t.job = some j →
      j.ytdlpSet = true → j.ffmpegSet = true →
      (step2 t Ev2.downloadClose).job = none ∧
      (step2 t Ev2.downloadClose).kills = t.kills ++ ["ytdlp", "ffmpeg"] ∧
      (progressGet2 (step2 t Ev2.downloadClose) o).2 = HResp.notFound ∧
      (downloadGet2 (step2 t Ev2.downloadClose)).2 = HResp.notFound) := by
  constructor
  · intro s j o hj hy hf
    have hcl : step1 s Ev1.downloadClose = cleanupJob1 s := rfl
    rw [hcl]
    have h1 := cleanupJob1_job s
    refine ⟨h1, ?_, ?_, ?_⟩ <;>
      simp [cleanupJob1, progressGet1, downloadGet1, hj, hy, hf, h1]
  · intro t j o hj hy hf
    have hcl : step2 t Ev2.downloadClose = cleanupJob2 t := rfl
    rw [hcl]
    have h2 := cleanupJob2_job t
    refine ⟨h2, ?_, ?_, ?_⟩ <;>
      simp [cleanupJob2, progressGet2, downloadGet2, hj, hy, hf, h2]

/-- Witness for C6 at concrete launched states of both variants. -/
theorem C6_download_disconnect_witness :
    ((step1 (run1 init1 [Ev1.launch "t" "mp3"]) Ev1.downloadClose).job = none ∧
      (step1 (run1 init1 [Ev1.launch "t" "mp3"]) Ev1.downloadClose).kills =
        (run1 init1 [Ev1.launch "t" "mp3"]).kills ++ ["ytdlp", "ffmpeg"] ∧
      (progressGet1 (step1 (run1 init1 [Ev1.launch "t" "mp3"]) Ev1.downloadClose) 0).2 =
        HResp.notFound ∧
      (downloadGet1 (step1 (run1 init1 [Ev1.launch "t" "mp3"]) Ev1.downloadClose)).2 =
        HResp.notFound) ∧
    ((step2 (run2 init2 [Ev2.launch]) Ev2.downloadClose).job = none ∧
      (step2 (run2 init2 [Ev2.launch]) Ev2.downloadClose).kills =
        (run2 init2 [Ev2.launch]).kills ++ ["ytdlp", "ffmpeg"] ∧
      (progressGet2 (step2 (run2 init2 [Ev2.launch]) Ev2.downloadClose) 0).2 =
        HResp.notFound ∧
      (downloadGet2 (step2 (run2 init2 [Ev2.launch]) Ev2.downloadClose)).2 =
        HResp.notFound) :=
  ⟨C6_download_disconnect.1 (run1 init1 [Ev1.launch "t" "mp3"])
      { status := "downloading", progress := 0, error := none, title := some "t",
        format := some "mp3", ytdlpSet := true, ffmpegSet := true } 0
      (by decide) (by decide) (by decide),
   C6_download_disconnect.2 (run2 init2 [Ev2.launch])
      { status := "initializing", progress := 0, error := none,
        ytdlpSet := true, ffmpegSet := true } 0
      (by decide) (by decide) (by decide)⟩

/-! ## Failure reporting (C2) -/

/-- C2 counterexample: in variant 1 a transform-process exit with code 1
("process non-zero exit") leaves the job at the non-terminal status
`"downloading"` — the status never becomes `"failed"` (no handler in
variants 1 or 2 ever assigns `"failed"`), only the `error` field is set,
and no update is emitted to any observer, so the claimed
`status = failed` is not reached. -/
theorem C2_counterexample :
    (run1 init1 [Ev1.launch "t" "mp3", Ev1.ffmpegClose (some 1)]).job =
      some { status := "downloading", progress := 0,
             error := some "ffmpeg failed with code 1", title := some "t",
             format := some "mp3", ytdlpSet := true, ffmpegSet := true } ∧
    (run1 init1 [Ev1.launch "t" "mp3", Ev1.ffmpegClose (some 1)]).delivered = [] ∧
    "downloading" ≠ "failed" := by decide

/-- C2 as amended: every pipeline failure (spawn error event, non-zero exit,
signal) records a non-empty descriptive `error` on the job while leaving the
`status` field unchanged (it never becomes `"failed"` in variants 1 and 2),
variant 2 additionally emits an `{ error }` update to all attached
observers, and a transform-process exit code of 0 sets
`status = "complete"` (with a `{ status }` update in variant 2). -/
theorem C2_failure_reporting :
    (∀ (s : Sys1) (j : Job1) (c : Option Int), s.job = some j → c ≠ some 0 →
      (step1 s (Ev1.ffmpegClose c)).job =
        some ({ j with error := some ("ffmpeg failed with code " ++ codeStr c) }) ∧
      ("ffmpeg failed with code " ++ codeStr c).length ≠ 0) ∧
    (∀ (s : Sys1) (j : Job1), s.job = some j →
      (step1 s (Ev1.ffmpegClose (some 0))).job = some ({ j with status := "complete" })) ∧
    (∀ (s : Sys2) (j : Job2) (c : Option Int), s.job = some j → c ≠ some 0 →
      (step2 s (Ev2.ffmpegClose c)).job =
        some ({ j with error := some ("Failed with code " ++ codeStr c) }) ∧
      (step2 s (Ev2.ffmpegClose c)).delivered = s.delivered ++
        s.listeners.map (fun o => (o, Update2.errorOnly ("Failed with code " ++ codeStr c))) ∧
      ("Failed with code " ++ codeStr c).length ≠ 0) ∧
    (∀ (s : Sys2) (j : Job2), s.job = some j →
      (step2 s (Ev2.ffmpegClose (some 0))).job = some ({ j with status := "complete" }) ∧
      (step2 s (Ev2.ffmpegClose (some 0))).delivered = s.delivered ++
        s.listeners.map (fun o => (o, Update2.statusOnly "complete"))) ∧
    (∀ (s : Sys2) (j : Job2) (m : String), s.job = some j →
      (step2 s (Ev2.ytdlpError m)).job = some ({ j with error := some m }) ∧
      (step2 s (Ev2.ffmpegError m)).job = some ({ j with error := some m })) := by
  refine ⟨?_, ?_, ?_, ?_, ?_⟩
  · intro s j c hj hc
    have hlen : ("ffmpeg failed with code ").length = 24 := by decide
    refine ⟨by simp [step1, hj, hc], ?_⟩
    rw [String.length_append, hlen]
    omega
  · intro s j hj
    simp [step1, hj]
  · intro s j c hj hc
    have hlen : ("Failed with code ").length = 17 := by decide
    refine ⟨by simp [step2, broadcast2, hj, hc], by simp [step2, broadcast2, hj, hc], ?_⟩
    rw [String.length_append, hlen]
    omega
  · intro s j hj
    exact ⟨by simp [step2, broadcast2, hj], by simp [step2, broadcast2, hj]⟩
  · intro s j m hj
    exact ⟨by simp [step2, broadcast2, hj], by simp [step2, broadcast2, hj]⟩

/-- Witness for C2 as amended, at a launched variant 1 job with exit code 1,
a killed variant 1 job (`code === null`), and a variant 2 job with exit
code 0. -/
theorem C2_failure_reporting_witness :
    ((step1 (run1 init1 [Ev1.launch "t" "mp3"]) (Ev1.ffmpegClose (some 1))).job =
      some { status := "downloading", progress := 0,
             error := some ("ffmpeg failed with code " ++ codeStr (some 1)),
             title := some "t", format := some "mp3",
             ytdlpSet := true, ffmpegSet := true } ∧
     ("ffmpeg failed with code " ++ codeStr (some 1)).length ≠ 0) ∧
    ((step1 (run1 init1 [Ev1.launch "t" "mp3"]) (Ev1.ffmpegClose none)).job =
      some { status := "downloading", progress := 0,
             error := some ("ffmpeg failed with code " ++ codeStr none),
             title := some "t", format := some "mp3",
             ytdlpSet := true, ffmpegSet := true } ∧
     ("ffmpeg failed with code " ++ codeStr none).length ≠ 0) ∧
    (step2 (run2 init2 [Ev2.launch]) (Ev2.ffmpegClose (some 0))).job =
      some { status := "complete", progress := 0, error := none,
             ytdlpSet := true, ffmpegSet := true } :=
  ⟨C2_failure_reporting.1 (run1 init1 [Ev1.launch "t" "mp3"])
      { status := "downloading", progress := 0, error := none, title := some "t",
        format := some "mp3", ytdlpSet := true, ffmpegSet := true } (some 1)
      (by decide) (by decide),
   C2_failure_reporting.1 (run1 init1 [Ev1.launch "t" "mp3"])
      { status := "downloading", progress := 0, error := none, title := some "t",
        format := some "mp3", ytdlpSet := true, ffmpegSet := true } none
      (by decide) (by decide),
   (C2_failure_reporting.2.2.2.1 (run2 init2 [Ev2.launch])
      { status := "initializing", progress := 0, error := none,
        ytdlpSet := true, ffmpegSet := true }
      (by decide)).1⟩

theorem step1_good (s : Sys1) (e : Ev1) (h : s.job.all goodJob1 = true) :
    (step1 s e).job.all goodJob1 = true := by
  cases e with
  | launch title format =>
    cases hj : s.job with
    | none => simpa [step1, hj] using h
    | some j =>
      rw [hj, Option.all_some] at h
      simp only [goodJob1, chainStatus1, Bool.and_eq_true, Bool.or_eq_true, beq_iff_eq,
        decide_eq_true_eq] at h
      simp [step1, hj, goodJob1, chainStatus1, Bool.and_eq_true, Bool.or_eq_true,
        beq_iff_eq, decide_eq_true_eq]
      tauto
  | ffmpegClose code =>
    cases hj : s.job with
    | none => simpa [step1, hj] using h
    | some j =>
      rw [hj, Option.all_some] at h
      simp only [goodJob1, chainStatus1, Bool.and_eq_true, Bool.or_eq_true, beq_iff_eq,
        decide_eq_true_eq] at h
      by_cases hc : code = some 0 <;>
        simp [step1, hj, hc, goodJob1, chainStatus1, Bool.and_eq_true, Bool.or_eq_true,
          beq_iff_eq, decide_eq_true_eq] <;>
        tauto
  | stderrData chunk =>
    cases hj : s.job with
    | none => simpa [step1, hj] using h
    | some j =>
      rw [hj, Option.all_some] at h
      simp only [goodJob1, chainStatus1, Bool.and_eq_true, Bool.or_eq_true, beq_iff_eq,
        decide_eq_true_eq] at h
      cases hm : matchProgress1 chunk.data with
      | none => simp [step1, hj, hm, goodJob1, chainStatus1, Bool.and_eq_true, Bool.or_eq_true,
          beq_iff_eq, decide_eq_true_eq]; tauto
      | some q =>
        have hb1 := (matchProgress1_bounds hm).1
        have hb2 := (matchProgress1_bounds hm).2
        simp [step1, hj, hm, broadcast1, goodJob1, chainStatus1, Bool.and_eq_true,
          Bool.or_eq_true, beq_iff_eq, decide_eq_true_eq]
        tauto
  | subscribe o =>
    cases hj : s.job with
    | none => simpa [step1, progressGet1, hj] using h
    | some j =>
      rw [hj] at h
      simpa [step1, progressGet1, hj] using h
  | progressClose o => simpa [step1] using h
  | downloadClose => simp [step1, Option.all, cleanupJob1_job s]
  | cleanupTimer => simp [step1, Option.all, cleanupJob1_job s]

theorem step2_good (s : Sys2) (e : Ev2) (h : s.job.all goodJob2 = true) :
    (step2 s e).job.all goodJob2 = true := by
  cases e with
  | launch =>
    cases hj : s.job with
    | none => simpa [step2, hj] using h
    | some j =>
      rw [hj, Option.all_some] at h
      simp only [goodJob2, chainStatus2, Bool.and_eq_true, Bool.or_eq_true, beq_iff_eq,
        decide_eq_true_eq] at h
      simp [step2, hj, goodJob2, chainStatus2, Bool.and_eq_true, Bool.or_eq_true,
        beq_iff_eq, decide_eq_true_eq]
      tauto
  | titleClose =>
    cases hj : s.job with
    | none => simpa [step2, hj] using h
    | some j =>
      rw [hj, Option.all_some] at h
      simp only [goodJob2, chainStatus2, Bool.and_eq_true, Bool.or_eq_true, beq_iff_eq,
        decide_eq_true_eq] at h
      simp [step2, hj, broadcast2, goodJob2, chainStatus2, Bool.and_eq_true, Bool.or_eq_true,
        beq_iff_eq, decide_eq_true_eq]
      tauto
  | stderrData chunk =>
    cases hj : s.job with
    | none => simpa [step2, hj] using h
    | some j =>
      rw [hj, Option.all_some] at h
      simp only [goodJob2, chainStatus2, Bool.and_eq_true, Bool.or_eq_true, beq_iff_eq,
        decide_eq_true_eq] at h
      cases hm : matchProgress2 chunk.data with
      | none => simp [step2, hj, hm, goodJob2, chainStatus2, Bool.and_eq_true, Bool.or_eq_true,
          beq_iff_eq, decide_eq_true_eq]; tauto
      | some q =>
        have hb := matchProgress2_nonneg hm
        by_cases hq : q > (90 : ℚ) <;>
          simp [step2, hj, hm, hq, broadcast2, goodJob2, chainStatus2, Bool.and_eq_true,
            Bool.or_eq_true, beq_iff_eq, decide_eq_true_eq] <;>
          tauto
  | ytdlpError m =>
    cases hj : s.job with
    | none => simpa [step2, hj] using h
    | some j =>
      rw [hj, Option.all_some] at h
      simp only [goodJob2, chainStatus2, Bool.and_eq_true, Bool.or_eq_true, beq_iff_eq,
        decide_eq_true_eq] at h
      simp [step2, hj, broadcast2, goodJob2, chainStatus2, Bool.and_eq_true, Bool.or_eq_true,
        beq_iff_eq, decide_eq_true_eq]
      tauto
  | ffmpegError m =>
    cases hj : s.job with
    | none => simpa [step2, hj] using h
    | some j =>
      rw [hj, Option.all_some] at h
      simp only [goodJob2, chainStatus2, Bool.and_eq_true, Bool.or_eq_true, beq_iff_eq,
        decide_eq_true_eq] at h
      simp [step2, hj, broadcast2, goodJob2, chainStatus2, Bool.and_eq_true, Bool.or_eq_true,
        beq_iff_eq, decide_eq_true_eq]
      tauto
  | ffmpegClose code =>
    cases hj : s.job with
    | none => simpa [step2, hj] using h
    | some j =>
      rw [hj, Option.all_some] at h
      simp only [goodJob2, chainStatus2, Bool.and_eq_true, Bool.or_eq_true, beq_iff_eq,
        decide_eq_true_eq] at h
      by_cases hc : code = some 0 <;>
        simp [step2, hj, hc, broadcast2, goodJob2, chainStatus2, Bool.and_eq_true,
          Bool.or_eq_true, beq_iff_eq, decide_eq_true_eq] <;>
        tauto
  | subscribe o =>
    cases hj : s.job with
    | none => simpa [step2, progressGet2, hj] using h
    | some j =>
      rw [hj] at h
      simpa [step2, progressGet2, hj] using h
  | progressClose o =>
    cases hj : s.job with
    | none => simpa [step2, hj] using h
    | some j =>
      rw [hj] at h
      by_cases hcl : (j.status == "complete" || j.error.isSome) = true
      · simp [step2, hj, hcl, Option.all, cleanupJob2_job]
      · simpa [step2, hj, hcl] using h
  | downloadClose => simp [step2, Option.all, cleanupJob2_job s]
  | cleanupTimer => simp [step2, Option.all, cleanupJob2_job s]

theorem run1_good : ∀ (evs : List Ev1) (s : Sys1), s.job.all goodJob1 = true →
    (run1 s evs).job.all goodJob1 = true
  | [], _, h => h
  | e :: evs, s, h => run1_good evs (step1 s e) (step1_good s e h)

theorem run2_good : ∀ (evs : List Ev2) (s : Sys2), s.job.all goodJob2 = true →
    (run2 s evs).job.all goodJob2 = true
  | [], _, h => h
  | e :: evs, s, h => run2_good evs (step2 s e) (step2_good s e h)

/-- C8 counterexample: a variant 1 stderr chunk `"999.9%"` drives
`progress` to 999.9, outside `[0, 100]`, and a variant 2 stderr chunk
`"[download] 95.0%"` drives `status` to `"almost ready"`, which is not one
of the five enumerated status values. -/
theorem C8_counterexample :
    (run1 init1 [Ev1.launch "t" "mp3", Ev1.stderrData "999.9%"]).job.map Job1.progress =
      some (mkRat 9999 10) ∧
    ¬ (mkRat 9999 10 ≤ (100 : ℚ)) ∧
    (run2 init2 [Ev2.launch, Ev2.stderrData "[download] 95.0%"]).job.map Job2.status =
      some "almost ready" ∧
    "almost ready" ∉ (["initializing", "downloading", "processing", "complete", "failed"] :
      List String) := by
  decide

/-- C8 as amended: in every reachable state of either modelled variant the
status is one of the strings the handlers actually assign — `initializing`,
`downloading`, `complete` in variant 1 and `initializing`, `processing`,
`almost ready`, `complete` in variant 2 (`failed` is never assigned) — and
progress is nonnegative, bounded by 999.9 in variant 1 (the largest value
its regex can capture) and unbounded above in variant 2. -/
theorem C8_status_progress_ranges :
    (∀ evs : List Ev1, (run1 init1 evs).job.all goodJob1 = true) ∧
    (∀ evs : List Ev2, (run2 init2 evs).job.all goodJob2 = true) :=
  ⟨fun evs => run1_good evs init1 (by decide),
   fun evs => run2_good evs init2 (by decide)⟩

/-! ## Observer detachment (C7) -/

/-- C7 counterexample: in variant 2, when two observers are attached to a
completed job, the disconnect of observer 0 runs the full `cleanupJob`
(server.js lines 317-321): the job record is evicted, observer 1's listener
is removed along with everything else, and both subprocesses are killed —
far more than removing observer 0's own sink. -/
theorem C7_counterexample :
    (run2 init2 [Ev2.launch, Ev2.subscribe 0, Ev2.subscribe 1,
        Ev2.ffmpegClose (some 0)]).listeners = [0, 1] ∧
    (run2 init2 [Ev2.launch, Ev2.subscribe 0, Ev2.subscribe 1,
        Ev2.ffmpegClose (some 0)]).job.map Job2.status = some "complete" ∧
    (step2 (run2 init2 [Ev2.launch, Ev2.subscribe 0, Ev2.subscribe 1,
        Ev2.ffmpegClose (some 0)]) (Ev2.progressClose 0)).job = none ∧
    (step2 (run2 init2 [Ev2.launch, Ev2.subscribe 0, Ev2.subscribe 1,
        Ev2.ffmpegClose (some 0)]) (Ev2.progressClose 0)).listeners = [] ∧
    (step2 (run2 init2 [Ev2.launch, Ev2.subscribe 0, Ev2.subscribe 1,
        Ev2.ffmpegClose (some 0)]) (Ev2.progressClose 0)).kills = ["ytdlp", "ffmpeg"] := by
  decide

/-- C7 as amended: in variant 1 a `/progress` disconnect always removes only
the disconnecting observer's own listener, leaving the job record, the
delivery log, the kill log and the other observers untouched; in variant 2
the same holds provided the job is neither complete nor errored, while on a
complete or errored job the disconnect additionally triggers the full
cleanup, evicting the job and detaching every observer. -/
theorem C7_observer_detach :
    (∀ (s : Sys1) (o : Nat),
      (step1 s (Ev1.progressClose o)).job = s.job ∧
      (step1 s (Ev1.progressClose o)).delivered = s.delivered ∧
      (step1 s (Ev1.progressClose o)).kills = s.kills ∧
      (step1 s (Ev1.progressClose o)).listeners = s.listeners.erase o) ∧
    (∀ (s : Sys2) (j : Job2) (o : Nat), s.job = some j →
      j.status ≠ "complete" → j.error = none →
      (step2 s (Ev2.progressClose o)).job = s.job ∧
      (step2 s (Ev2.progressClose o)).delivered = s.delivered ∧
      (step2 s (Ev2.progressClose o)).kills = s.kills ∧
      (step2 s (Ev2.progressClose o)).listeners = s.listeners.erase o) ∧
    (∀ (s : Sys2) (j : Job2) (o : Nat), s.job = some j →
      (j.status = "complete" ∨ j.error ≠ none) →
      (step2 s (Ev2.progressClose o)).job = none) := by
  refine ⟨fun s o => ⟨rfl, rfl, rfl, rfl⟩, ?_, ?_⟩
  · intro s j o hj hst herr
    have hcond : (j.status == "complete" || j.error.isSome) = false := by
      simp [hst, herr]
    refine ⟨?_, ?_, ?_, ?_⟩ <;> simp [step2, hj, hcond]
  · intro s j o hj hd
    have hcond : (j.status == "complete" || j.error.isSome) = true := by
      rcases hd with h | h
      · simp [h]
      · simp [Option.isSome_iff_ne_none.mpr h]
    simp [step2, hj, hcond, cleanupJob2_job]

/-- Witness for C7 as amended: a non-terminal variant 2 job with two
observers loses only the disconnecting observer, and a completed one is
evicted. -/
theorem C7_observer_detach_witness :
    ((step2 (run2 init2 [Ev2.launch, Ev2.subscribe 0, Ev2.subscribe 1])
        (Ev2.progressClose 0)).job =
      (run2 init2 [Ev2.launch, Ev2.subscribe 0, Ev2.subscribe 1]).job ∧
     (step2 (run2 init2 [Ev2.launch, Ev2.subscribe 0, Ev2.subscribe 1])
        (Ev2.progressClose 0)).delivered =
      (run2 init2 [Ev2.launch, Ev2.subscribe 0, Ev2.subscribe 1]).delivered ∧
     (step2 (run2 init2 [Ev2.launch, Ev2.subscribe 0, Ev2.subscribe 1])
        (Ev2.progressClose 0)).kills =
      (run2 init2 [Ev2.launch, Ev2.subscribe 0, Ev2.subscribe 1]).kills ∧
     (step2 (run2 init2 [Ev2.launch, Ev2.subscribe 0, Ev2.subscribe 1])
        (Ev2.progressClose 0)).listeners =
      (run2 init2 [Ev2.launch, Ev2.subscribe 0, Ev2.subscribe 1]).listeners.erase 0) ∧
    (step2 (run2 init2 [Ev2.launch, Ev2.subscribe 0, Ev2.ffmpegClose (some 0)])
        (Ev2.progressClose 0)).job = none :=
  ⟨C7_observer_detach.2.1 (run2 init2 [Ev2.launch, Ev2.subscribe 0, Ev2.subscribe 1])
      { status := "initializing", progress := 0, error := none,
        ytdlpSet := true, ffmpegSet := true } 0
      (by decide) (by decide) (by decide),
   C7_observer_detach.2.2 (run2 init2 [Ev2.launch, Ev2.subscribe 0, Ev2.ffmpegClose (some 0)])
      { status := "complete", progress := 0, error := none,
        ytdlpSet := true, ffmpegSet := true } 0
      (by decide) (Or.inl rfl)⟩

theorem fwdStr_refl (x : String) : fwdStr x x = true := by
  simp only [fwdStr, Bool.and_eq_true, decide_eq_true_eq]
  refine ⟨le_refl _, ?_⟩
  cases h : x == "complete" <;> simp [bne, h]

theorem fwd2_refl (x : String) : fwd2 (some x) (some x) = true := fwdStr_refl x

theorem fwd2_none_right (x : String) : fwd2 (some x) none = true := rfl

theorem noLateTitle_of_all :
    ∀ {l : List Ev2}, l.all (fun x => !(isTitleClose x)) = true → noLateTitle l = true := by
  intro l
  induction l with
  | nil => intro _; rfl
  | cons e rest ih =>
    intro h
    rw [List.all_cons, Bool.and_eq_true] at h
    cases e with
    | ffmpegClose c =>
      show (if c = some 0 then rest.all (fun x => !(isTitleClose x)) else noLateTitle rest) = true
      by_cases hc : c = some 0
      · rw [if_pos hc]
        exact h.2
      · rw [if_neg hc]
        exact ih h.2
    | launch => exact ih h.2
    | titleClose => exact ih h.2
    | stderrData chunk => exact ih h.2
    | ytdlpError m => exact ih h.2
    | ffmpegError m => exact ih h.2
    | subscribe o => exact ih h.2
    | progressClose o => exact ih h.2
    | downloadClose => exact ih h.2
    | cleanupTimer => exact ih h.2

theorem noLateTitle_tail {e : Ev2} {rest : List Ev2}
    (h : noLateTitle (e :: rest) = true) : noLateTitle rest = true := by
  cases e with
  | ffmpegClose c =>
    have h' : (if c = some 0 then rest.all (fun x => !(isTitleClose x))
        else noLateTitle rest) = true := h
    by_cases hc : c = some 0
    · rw [if_pos hc] at h'
      exact noLateTitle_of_all h'
    · rwa [if_neg hc] at h'
  | launch => exact h
  | titleClose => exact h
  | stderrData chunk => exact h
  | ytdlpError m => exact h
  | ffmpegError m => exact h
  | subscribe o => exact h
  | progressClose o => exact h
  | downloadClose => exact h
  | cleanupTimer => exact h

theorem rank2_le_two (x : String) : rank2 x ≤ 2 := by
  rw [rank2]
  split_ifs <;> omega

theorem fwdStr_to_complete (x : String) : fwdStr x "complete" = true := by
  simp only [fwdStr, Bool.and_eq_true, decide_eq_true_eq]
  refine ⟨?_, by simp⟩
  have h2 : rank2 "complete" = 2 := by decide
  rw [h2]
  exact rank2_le_two x

theorem fwd2_to_complete (x : String) : fwd2 (some x) (some "complete") = true :=
  fwdStr_to_complete x

theorem step2_status_facts (s : Sys2) (e : Ev2)
    (hgood : ∀ j, s.job = some j → chainFwd j.status = true)
    (hse : stderrOK e = true)
    (hnt : statusOf2 s = some "complete" → isTitleClose e = false) :
    fwd2 (statusOf2 s) (statusOf2 (step2 s e)) = true ∧
    (∀ j, (step2 s e).job = some j → chainFwd j.status = true) ∧
    (statusOf2 (step2 s e) = some "complete" →
      statusOf2 s = some "complete" ∨ e = Ev2.ffmpegClose (some 0)) := by
  cases hj : s.job with
  | none =>
    cases e <;>
      simp [step2, statusOf2, hj, progressGet2, cleanupJob2, broadcast2, fwd2]
  | some j =>
    have hcf := hgood j hj
    cases e with
    | launch =>
      refine ⟨?_, ?_, ?_⟩
      · simp [step2, statusOf2, hj, fwd2_refl]
      · intro j2 h2
        simp [step2, hj] at h2
        rw [← h2]
        exact hcf
      · intro h
        simp [step2, statusOf2, hj] at h ⊢
        exact h
    | titleClose =>
      have hnc : j.status ≠ "complete" := by
        intro hcmp
        have h1 : statusOf2 s = some "complete" := by
          simp only [statusOf2, hj, Option.map_some', hcmp]
        have h2 := hnt h1
        simp [isTitleClose] at h2
      simp only [chainFwd, Bool.or_eq_true, beq_iff_eq] at hcf
      refine ⟨?_, ?_, ?_⟩
      · rcases hcf with (h | h) | h
        · simp [step2, statusOf2, hj, broadcast2, fwd2, h] <;> decide
        · simp [step2, statusOf2, hj, broadcast2, fwd2, h] <;> decide
        · exact absurd h hnc
      · intro j2 h2
        simp [step2, hj, broadcast2] at h2
        rw [← h2]
        show chainFwd "processing" = true
        decide
      · intro h
        simp [step2, statusOf2, hj, broadcast2] at h
    | stderrData chunk =>
      cases hm : matchProgress2 chunk.data with
      | none =>
        refine ⟨?_, ?_, ?_⟩
        · simp [step2, statusOf2, hj, hm, fwd2_refl]
        · intro j2 h2
          simp [step2, hj, hm] at h2
          rw [← h2]
          exact hcf
        · intro h
          simp [step2, statusOf2, hj, hm] at h ⊢
          exact h
      | some q =>
        have hle : q ≤ (90 : ℚ) := by
          simp only [stderrOK, hm, decide_eq_true_eq] at hse
          exact hse
        have hq : ¬ (q > (90 : ℚ)) := not_lt.mpr hle
        refine ⟨?_, ?_, ?_⟩
        · simp [step2, statusOf2, hj, hm, hq, broadcast2, fwd2_refl]
        · intro j2 h2
          simp [step2, hj, hm, hq, broadcast2] at h2
          rw [← h2]
          exact hcf
        · intro h
          simp [step2, statusOf2, hj, hm, hq, broadcast2] at h ⊢
          exact h
    | ytdlpError m =>
      refine ⟨?_, ?_, ?_⟩
      · simp [step2, statusOf2, hj, broadcast2, fwd2_refl]
      · intro j2 h2
        simp [step2, hj, broadcast2] at h2
        rw [← h2]
        exact hcf
      · intro h
        simp [step2, statusOf2, hj, broadcast2] at h ⊢
        exact h
    | ffmpegError m =>
      refine ⟨?_, ?_, ?_⟩
      · simp [step2, statusOf2, hj, broadcast2, fwd2_refl]
      · intro j2 h2
        simp [step2, hj, broadcast2] at h2
        rw [← h2]
        exact hcf
      · intro h
        simp [step2, statusOf2, hj, broadcast2] at h ⊢
        exact h
    | ffmpegClose c =>
      by_cases hc : c = some 0
      · refine ⟨?_, ?_, ?_⟩
        · simp [step2, statusOf2, hj, hc, broadcast2, fwd2_to_complete]
        · intro j2 h2
          simp [step2, hj, hc, broadcast2] at h2
          rw [← h2]
          show chainFwd "complete" = true
          decide
        · intro _
          exact Or.inr (by rw [hc])
      · refine ⟨?_, ?_, ?_⟩
        · simp [step2, statusOf2, hj, hc, broadcast2, fwd2_refl]
        · intro j2 h2
          simp [step2, hj, hc, broadcast2] at h2
          rw [← h2]
          exact hcf
        · intro h
          simp [step2, statusOf2, hj, hc, broadcast2] at h ⊢
          exact h
    | subscribe o =>
      refine ⟨?_, ?_, ?_⟩
      · simp [step2, statusOf2, progressGet2, hj, fwd2_refl]
      · intro j2 h2
        simp [step2, progressGet2, hj] at h2
        rw [← h2]
        exact hcf
      · intro h
        simp [step2, statusOf2, progressGet2, hj] at h ⊢
        exact h
    | progressClose o =>
      by_cases hcl : (j.status == "complete" || j.error.isSome) = true
      · refine ⟨?_, ?_, ?_⟩
        · simp [step2, statusOf2, hj, hcl, cleanupJob2_job, fwd2]
        · intro j2 h2
          rw [show (step2 s (Ev2.progressClose o)).job = none from by
            simp [step2, hj, hcl, cleanupJob2_job]] at h2
          cases h2
        · intro h
          rw [show statusOf2 (step2 s (Ev2.progressClose o)) = none from by
            simp [step2, statusOf2, hj, hcl, cleanupJob2_job]] at h
          cases h
      · refine ⟨?_, ?_, ?_⟩
        · simp [step2, statusOf2, hj, hcl, fwd2_refl]
        · intro j2 h2
          simp [step2, hj, hcl] at h2
          rw [← h2]
          exact hcf
        · intro h
          simp [step2, statusOf2, hj, hcl] at h ⊢
          exact h
    | downloadClose =>
      refine ⟨?_, ?_, ?_⟩
      · simp [step2, statusOf2, hj, cleanupJob2_job, fwd2]
      · intro j2 h2
        rw [show (step2 s Ev2.downloadClose).job = none from cleanupJob2_job s] at h2
        cases h2
      · intro h
        rw [show statusOf2 (step2 s Ev2.downloadClose) = none from by
          simp [statusOf2, show (step2 s Ev2.downloadClose).job = none from cleanupJob2_job s]] at h
        cases h
    | cleanupTimer =>
      refine ⟨?_, ?_, ?_⟩
      · simp [step2, statusOf2, hj, cleanupJob2_job, fwd2]
      · intro j2 h2
        rw [show (step2 s Ev2.cleanupTimer).job = none from cleanupJob2_job s] at h2
        cases h2
      · intro h
        rw [show statusOf2 (step2 s Ev2.cleanupTimer) = none from by
          simp [statusOf2, show (step2 s Ev2.cleanupTimer).job = none from cleanupJob2_job s]] at h
        cases h

theorem chain'_cons_statusTrace {R : Option String → Option String → Prop}
    (x : Option String) (s : Sys2) (evs : List Ev2) :
    List.Chain' R (x :: statusTrace2 s evs) ↔
      R x (statusOf2 s) ∧ List.Chain' R (statusTrace2 s evs) := by
  cases evs <;> simp [statusTrace2, List.chain'_cons]

theorem C1_aux : ∀ (evs : List Ev2) (s : Sys2),
    (∀ j, s.job = some j → chainFwd j.status = true) →
    evs.all stderrOK = true →
    noLateTitle evs = true →
    (statusOf2 s = some "complete" → evs.all (fun e => !(isTitleClose e)) = true) →
    List.Chain' (fun a b => fwd2 a b = true) (statusTrace2 s evs) ∧
    (∀ a ∈ statusTrace2 s evs, a.all chainFwd = true) := by
  intro evs
  induction evs with
  | nil =>
    intro s hgood _ _ _
    refine ⟨by simp [statusTrace2], ?_⟩
    intro a ha
    rw [show statusTrace2 s [] = [statusOf2 s] from rfl, List.mem_singleton] at ha
    subst ha
    cases hj : s.job with
    | none => simp [statusOf2, hj]
    | some j =>
      rw [show statusOf2 s = some j.status from by simp [statusOf2, hj], Option.all_some]
      exact hgood j hj
  | cons e evs ih =>
    intro s hgood hse hnlt hcomp
    rw [List.all_cons, Bool.and_eq_true] at hse
    have hnt : statusOf2 s = some "complete" → isTitleClose e = false := by
      intro hc
      have := hcomp hc
      rw [List.all_cons, Bool.and_eq_true] at this
      simpa using this.1
    have hfacts := step2_status_facts s e hgood hse.1 hnt
    have hcomp' : statusOf2 (step2 s e) = some "complete" →
        evs.all (fun x => !(isTitleClose x)) = true := by
      intro hc2
      rcases hfacts.2.2 hc2 with hc1 | hcl0
      · have := hcomp hc1
        rw [List.all_cons, Bool.and_eq_true] at this
        exact this.2
      · subst hcl0
        have h' : (if (some 0 : Option Int) = some 0 then
            evs.all (fun x => !(isTitleClose x)) else noLateTitle evs) = true := hnlt
        rwa [if_pos rfl] at h'
    have hrec := ih (step2 s e) hfacts.2.1 hse.2 (noLateTitle_tail hnlt) hcomp'
    constructor
    · rw [statusTrace2, chain'_cons_statusTrace]
      exact ⟨hfacts.1, hrec.1⟩
    · intro a ha
      rw [show statusTrace2 s (e :: evs) =
        statusOf2 s :: statusTrace2 (step2 s e) evs from rfl, List.mem_cons] at ha
      rcases ha with ha | ha
      · subst ha
        cases hj : s.job with
        | none => simp [statusOf2, hj]
        | some j =>
          rw [show statusOf2 s = some j.status from by simp [statusOf2, hj], Option.all_some]
          exact hgood j hj
      · exact hrec.2 a ha

/-- C1 counterexample: in variant 2, with an observer attached, a transform
exit with code 0 moves the job to the terminal status `"complete"` and
delivers `{ status: "complete" }`; a subsequent close of the
title-resolution process (server.js lines 226-234) then unconditionally
sets `status = "processing"` and delivers `{ status: "processing" }` — the
observer sees a transition out of the terminal state. -/
theorem C1_counterexample :
    statusOf2 (run2 init2 [Ev2.launch, Ev2.subscribe 0, Ev2.ffmpegClose (some 0)]) =
      some "complete" ∧
    statusOf2 (run2 init2 [Ev2.launch, Ev2.subscribe 0, Ev2.ffmpegClose (some 0),
      Ev2.titleClose]) = some "processing" ∧
    deliveredTo 0 (run2 init2 [Ev2.launch, Ev2.subscribe 0, Ev2.ffmpegClose (some 0),
        Ev2.titleClose]).delivered =
      [Update2.snapshot "initializing" 0 none, Update2.statusOnly "complete",
       Update2.statusProgress "processing" 0] := by
  decide

theorem deliveredTo_append {α : Type} (o : Nat) (l1 l2 : List (Nat × α)) :
    deliveredTo o (l1 ++ l2) = deliveredTo o l1 ++ deliveredTo o l2 := by
  simp [deliveredTo, List.filter_append]

theorem deliveredTo_single_eq {α : Type} (o : Nat) (u : α) :
    deliveredTo o [(o, u)] = [u] := by
  simp [deliveredTo]

theorem deliveredTo_single_ne {α : Type} {o p : Nat} (h : p ≠ o) (u : α) :
    deliveredTo o [(p, u)] = [] := by
  simp [deliveredTo, h]

theorem deliveredTo_map {α : Type} (o : Nat) (l : List Nat) (u : α) :
    deliveredTo o (l.map (fun p => (p, u))) =
      (l.filter (fun p => p == o)).map (fun _ => u) := by
  induction l with
  | nil => rfl
  | cons p rest ih =>
    by_cases hp : p = o <;>
      simp [deliveredTo, List.filter_cons, hp] <;>
      simpa [deliveredTo] using ih

theorem snapshotFirstB_append {x ys : List Update1}
    (hx : snapshotFirstB x = true) (hys : ys.all (fun v => !(isSnap1 v)) = true)
    (hne : x = [] → ys = []) : snapshotFirstB (x ++ ys) = true := by
  cases x with
  | nil => rw [hne rfl]; rfl
  | cons u t =>
    rw [List.cons_append]
    rw [snapshotFirstB, Bool.and_eq_true] at hx
    rw [snapshotFirstB, Bool.and_eq_true, List.all_append, Bool.and_eq_true]
    exact ⟨hx.1, hx.2, hys⟩

theorem filter_eq_single_of_count {o : Nat} :
    ∀ {l : List Nat}, l.count o = 1 → l.filter (fun p => p == o) = [o] := by
  intro l
  induction l with
  | nil => intro h; simp at h
  | cons x xs ih =>
    intro h
    by_cases hx : x = o
    · subst hx
      rw [List.count_cons_self] at h
      have h0 : xs.count x = 0 := by omega
      have hnm : x ∉ xs := List.count_eq_zero.mp h0
      have hf : xs.filter (fun p => p == x) = [] := by
        rw [List.filter_eq_nil_iff]
        intro a ha
        simp only [beq_iff_eq]
        intro hax
        exact hnm (hax ▸ ha)
      simp [List.filter_cons, hf]
    · have hne : (x == o) = false := by simp [hx]
      rw [List.count_cons_of_ne (Ne.symm hx)] at h
      simp [List.filter_cons, hne]
      exact ih h

theorem obsInv1_of_eq {s s' : Sys1} {fut : List Nat} (hd : s'.delivered = s.delivered)
    (hsub : ∀ p, p ∈ s'.listeners → p ∈ s.listeners) (h : obsInv1 s fut) : obsInv1 s' fut :=
  ⟨fun o => hd ▸ h.1 o,
   fun o ho => hd ▸ h.2.1 o (hsub o ho),
   fun o ho => ⟨hd ▸ (h.2.2 o ho).1, fun hm => (h.2.2 o ho).2 (hsub o hm)⟩⟩

theorem run1_obsInv : ∀ (evs : List Ev1) (s : Sys1),
    obsInv1 s (subsOf1 evs) → (subsOf1 evs).Nodup →
    ∀ o : Nat, snapshotFirstB (deliveredTo o (run1 s evs).delivered) = true := by
  intro evs
  induction evs with
  | nil => exact fun s hinv _ o => hinv.1 o
  | cons e evs ih =>
    intro s hinv hnd
    cases e with
    | subscribe o =>
      have hndc := List.nodup_cons.mp hnd
      cases hj : s.job with
      | none =>
        apply ih (step1 s (Ev1.subscribe o)) ?_ hndc.2
        have hstep : step1 s (Ev1.subscribe o) = s := by
          simp [step1, progressGet1, hj]
        rw [hstep]
        exact ⟨hinv.1, hinv.2.1,
          fun p hp => hinv.2.2 p (List.mem_cons_of_mem _ hp)⟩
      | some j =>
        apply ih (step1 s (Ev1.subscribe o)) ?_ hndc.2
        have hd : (step1 s (Ev1.subscribe o)).delivered =
            s.delivered ++ [(o, Update1.snapshot j.status j.progress j.error)] := by
          simp [step1, progressGet1, hj]
        have hl : (step1 s (Ev1.subscribe o)).listeners = s.listeners ++ [o] := by
          simp [step1, progressGet1, hj]
        have hfresh := hinv.2.2 o (List.mem_cons_self _ _)
        refine ⟨?_, ?_, ?_⟩
        · intro p
          rw [hd, deliveredTo_append]
          by_cases hp : p = o
          · subst hp
            rw [hfresh.1, deliveredTo_single_eq, List.nil_append]
            simp [snapshotFirstB, isSnap1]
          · rw [deliveredTo_single_ne (Ne.symm hp), List.append_nil]
            exact hinv.1 p
        · intro p hp
          rw [hl, List.mem_append] at hp
          rw [hd, deliveredTo_append]
          rcases hp with hp1 | hp2
          · intro hcontra
            exact hinv.2.1 p hp1 (List.append_eq_nil.mp hcontra).1
          · have hpo : p = o := by simpa using hp2
            subst hpo
            rw [hfresh.1, deliveredTo_single_eq, List.nil_append]
            simp
        · intro p hp
          have hpo : p ≠ o := fun he => hndc.1 (he ▸ hp)
          have hold := hinv.2.2 p (List.mem_cons_of_mem _ hp)
          refine ⟨?_, ?_⟩
          · rw [hd, deliveredTo_append, deliveredTo_single_ne (Ne.symm hpo), List.append_nil]
            exact hold.1
          · rw [hl]
            intro hmem
            rcases List.mem_append.mp hmem with h1 | h2
            · exact hold.2 h1
            · exact hpo (by simpa using h2)
    | stderrData chunk =>
      cases hj : s.job with
      | none =>
        apply ih (step1 s (Ev1.stderrData chunk)) ?_ hnd
        have hstep : step1 s (Ev1.stderrData chunk) = s := by
          simp [step1, hj]
        rw [hstep]
        exact hinv
      | some j =>
        cases hm : matchProgress1 chunk.data with
        | none =>
          apply ih (step1 s (Ev1.stderrData chunk)) ?_ hnd
          have hstep : step1 s (Ev1.stderrData chunk) = s := by
            simp [step1, hj, hm]
          rw [hstep]
          exact hinv
        | some q =>
          apply ih (step1 s (Ev1.stderrData chunk)) ?_ hnd
          have hd : (step1 s (Ev1.stderrData chunk)).delivered = s.delivered ++
              s.listeners.map (fun p => (p, Update1.live j.status q)) := by
            simp [step1, hj, hm, broadcast1]
          have hl : (step1 s (Ev1.stderrData chunk)).listeners = s.listeners := by
            simp [step1, hj, hm, broadcast1]
          refine ⟨?_, ?_, ?_⟩
          · intro p
            rw [hd, deliveredTo_append, deliveredTo_map]
            apply snapshotFirstB_append (hinv.1 p)
            · rw [List.all_eq_true]
              intro v hv
              rcases List.mem_map.mp hv with ⟨_, _, hveq⟩
              rw [← hveq]
              rfl
            · intro h0
              by_cases hmem : p ∈ s.listeners
              · exact absurd h0 (hinv.2.1 p hmem)
              · have hfil : s.listeners.filter (fun x => x == p) = [] := by
                  rw [List.filter_eq_nil_iff]
                  intro a ha
                  simp only [beq_iff_eq]
                  intro hap
                  exact hmem (hap ▸ ha)
                rw [hfil]
                rfl
          · intro p hp
            rw [hl] at hp
            rw [hd, deliveredTo_append]
            intro hcontra
            exact hinv.2.1 p hp (List.append_eq_nil.mp hcontra).1
          · intro p hp
            have hold := hinv.2.2 p hp
            have hfil : s.listeners.filter (fun x => x == p) = [] := by
              rw [List.filter_eq_nil_iff]
              intro a ha
              simp only [beq_iff_eq]
              intro hap
              exact hold.2 (hap ▸ ha)
            refine ⟨?_, ?_⟩
            · rw [hd, deliveredTo_append, deliveredTo_map, hfil]
              simp [hold.1]
            · rw [hl]
              exact hold.2
    | progressClose o =>
      apply ih (step1 s (Ev1.progressClose o)) ?_ hnd
      exact @obsInv1_of_eq s (step1 s (Ev1.progressClose o)) (subsOf1 evs) rfl
        (fun p hp => List.mem_of_mem_erase (show p ∈ s.listeners.erase o from hp)) hinv
    | launch t f =>
      apply ih (step1 s (Ev1.launch t f)) ?_ hnd
      have hd : (step1 s (Ev1.launch t f)).delivered = s.delivered := by
        cases hj : s.job <;> simp [step1, hj]
      have hsub : ∀ p, p ∈ (step1 s (Ev1.launch t f)).listeners → p ∈ s.listeners := by
        cases hj : s.job <;> simp [step1, hj]
      exact obsInv1_of_eq hd hsub hinv
    | ffmpegClose c =>
      apply ih (step1 s (Ev1.ffmpegClose c)) ?_ hnd
      have hd : (step1 s (Ev1.ffmpegClose c)).delivered = s.delivered := by
        cases hj : s.job <;> by_cases hc : c = some 0 <;> simp [step1, hj, hc]
      have hsub : ∀ p, p ∈ (step1 s (Ev1.ffmpegClose c)).listeners → p ∈ s.listeners := by
        cases hj : s.job <;> by_cases hc : c = some 0 <;> simp [step1, hj, hc]
      exact obsInv1_of_eq hd hsub hinv
    | downloadClose =>
      apply ih (step1 s Ev1.downloadClose) ?_ hnd
      have hd : (step1 s Ev1.downloadClose).delivered = s.delivered := by
        cases hj : s.job <;> simp [step1, cleanupJob1, hj]
      have hsub : ∀ p, p ∈ (step1 s Ev1.downloadClose).listeners → p ∈ s.listeners := by
        cases hj : s.job <;> simp [step1, cleanupJob1, hj]
      exact obsInv1_of_eq hd hsub hinv
    | cleanupTimer =>
      apply ih (step1 s Ev1.cleanupTimer) ?_ hnd
      have hd : (step1 s Ev1.cleanupTimer).delivered = s.delivered := by
        cases hj : s.job <;> simp [step1, cleanupJob1, hj]
      have hsub : ∀ p, p ∈ (step1 s Ev1.cleanupTimer).listeners → p ∈ s.listeners := by
        cases hj : s.job <;> simp [step1, cleanupJob1, hj]
      exact obsInv1_of_eq hd hsub hinv

/-- C3 counterexample: in variant 1 the transition to the terminal status
`"complete"` (ffmpeg close, server.js lines 104-111) emits nothing, so an
observer subscribed since before the transition receives only its initial
snapshot and never learns of the transition — "delivers every subsequent
state transition" fails. -/
theorem C3_counterexample :
    (run1 init1 [Ev1.launch "t" "mp3", Ev1.subscribe 0,
        Ev1.ffmpegClose (some 0)]).job.map Job1.status = some "complete" ∧
    (run1 init1 [Ev1.launch "t" "mp3", Ev1.subscribe 0,
        Ev1.ffmpegClose (some 0)]).listeners = [0] ∧
    deliveredTo 0 (run1 init1 [Ev1.launch "t" "mp3", Ev1.subscribe 0,
        Ev1.ffmpegClose (some 0)]).delivered =
      [Update1.snapshot "downloading" 0 none] := by
  decide

/-- C3 as amended: subscribing with an unknown job id fails with 404 and
leaves the state unchanged; subscribing to an existing job immediately
delivers exactly one snapshot of the current `(status, progress, error)`
and an observer's write sequence never contains a second snapshot nor a
live update before the snapshot (for runs in which each observer
subscribes at most once); and every update the job's emitter emits is
delivered to each attached observer.  However only emitted updates are
delivered: status transitions that emit nothing (variant 1's launch and
ffmpeg-close transitions) are never delivered to any observer. -/
theorem C3_subscribe_semantics :
    (∀ (s : Sys1) (o : Nat), s.job = none → progressGet1 s o = (s, HResp.notFound)) ∧
    (∀ (s : Sys2) (o : Nat), s.job = none → progressGet2 s o = (s, HResp.notFound)) ∧
    (∀ evs : List Ev1, (subsOf1 evs).Nodup →
      ∀ o : Nat, snapshotFirstB (deliveredTo o (run1 init1 evs).delivered) = true) ∧
    (∀ (s : Sys1) (j : Job1) (chunk : String) (q : ℚ) (o : Nat),
      s.job = some j → matchProgress1 chunk.data = some q → s.listeners.count o = 1 →
      deliveredTo o (step1 s (Ev1.stderrData chunk)).delivered =
        deliveredTo o s.delivered ++ [Update1.live j.status q]) := by
  refine ⟨?_, ?_, ?_, ?_⟩
  · intro s o h
    simp [progressGet1, h]
  · intro s o h
    simp [progressGet2, h]
  · intro evs hnd o
    apply run1_obsInv evs init1 ?_ hnd
    refine ⟨fun p => rfl, fun p hp => ?_, fun p hp => ⟨rfl, ?_⟩⟩
    · exact absurd hp (List.not_mem_nil p)
    · exact List.not_mem_nil p
  · intro s j chunk q o hj hm hcount
    have hd : (step1 s (Ev1.stderrData chunk)).delivered = s.delivered ++
        s.listeners.map (fun p => (p, Update1.live j.status q)) := by
      simp [step1, hj, hm, broadcast1]
    rw [hd, deliveredTo_append, deliveredTo_map, filter_eq_single_of_count hcount]
    rfl

/-- Witness for C3 as amended: an unknown id answers 404, and a run with a
launch, one subscriber and one progress update keeps the subscriber's write
sequence snapshot-first. -/
theorem C3_subscribe_semantics_witness :
    progressGet1 emptySys1 7 = (emptySys1, HResp.notFound) ∧
    snapshotFirstB (deliveredTo 0 (run1 init1 [Ev1.launch "t" "mp3", Ev1.subscribe 0,
      Ev1.stderrData "12.3%"]).delivered) = true :=
  ⟨C3_subscribe_semantics.1 emptySys1 7 rfl,
   C3_subscribe_semantics.2.2.1 [Ev1.launch "t" "mp3", Ev1.subscribe 0,
      Ev1.stderrData "12.3%"] (by decide) 0⟩

/-! ## Delivered status sequences (C1) -/

theorem fwdStr_trans {x y z : String} (h1 : fwdStr x y = true) (h2 : fwdStr y z = true) :
    fwdStr x z = true := by
  simp only [fwdStr, Bool.and_eq_true, decide_eq_true_eq, Bool.or_eq_true, bne_iff_ne,
    beq_iff_eq] at h1 h2 ⊢
  refine ⟨le_trans h1.1 h2.1, ?_⟩
  rcases h1.2 with h | h
  · exact Or.inl h
  · rcases h2.2 with h' | h'
    · exact absurd h (h ▸ h')
    · exact Or.inr h'

theorem fwdStr_to_processing {x : String} (hx : chainFwd x = true) (hnc : x ≠ "complete") :
    fwdStr x "processing" = true := by
  simp only [chainFwd, Bool.or_eq_true, beq_iff_eq] at hx
  rcases hx with (h | h) | h
  · rw [h]; decide
  · rw [h]; decide
  · exact absurd h hnc

theorem statusesOf2_append : ∀ (l1 l2 : List Update2),
    statusesOf2 (l1 ++ l2) = statusesOf2 l1 ++ statusesOf2 l2 := by
  intro l1 l2
  induction l1 with
  | nil => rfl
  | cons u t ih => cases u <;> simp [statusesOf2, ih]

theorem statusesOf2_map_sp {α : Type} (l : List α) (st : String) (q : ℚ) :
    statusesOf2 (l.map (fun _ => Update2.statusProgress st q)) = l.map (fun _ => st) := by
  induction l with
  | nil => rfl
  | cons a t ih => simp only [List.map_cons, statusesOf2, ih]

theorem statusesOf2_map_so {α : Type} (l : List α) (st : String) :
    statusesOf2 (l.map (fun _ => Update2.statusOnly st)) = l.map (fun _ => st) := by
  induction l with
  | nil => rfl
  | cons a t ih => simp only [List.map_cons, statusesOf2, ih]

theorem statusesOf2_map_err {α : Type} (l : List α) (m : String) :
    statusesOf2 (l.map (fun _ => Update2.errorOnly m)) = [] := by
  induction l with
  | nil => rfl
  | cons a t ih => simp only [List.map_cons, statusesOf2, ih]

theorem chain'_of_all_eq {R : String → String → Prop} {st : String} (hrefl : R st st) :
    ∀ {ys : List String}, (∀ y ∈ ys, y = st) → List.Chain' R ys := by
  intro ys
  induction ys with
  | nil => intro _; simp
  | cons y t ih =>
    intro hall
    cases t with
    | nil => simp
    | cons z t2 =>
      rw [List.chain'_cons]
      refine ⟨?_, ih ?_⟩
      · rw [hall y (List.mem_cons_self _ _), hall z (List.mem_cons_of_mem _
          (List.mem_cons_self _ _))]
        exact hrefl
      · intro w hw
        exact hall w (List.mem_cons_of_mem _ hw)

theorem head?_all_eq {ys : List String} {st y : String} (hall : ∀ x ∈ ys, x = st)
    (h : y ∈ ys.head?) : y = st := by
  cases ys with
  | nil => simp at h
  | cons a t =>
    have hya : y = a := by
      have := h
      simp only [List.head?_cons, Option.mem_def, Option.some.injEq] at this
      exact this.symm
    rw [hya]
    exact hall a (List.mem_cons_self _ _)

theorem dInv2_preserve {s s' : Sys2}
    (hjob : ∀ j2, s'.job = some j2 → ∃ j1, s.job = some j1 ∧ j2.status = j1.status)
    (hdel : ∀ o : Nat, statusesOf2 (deliveredTo o s'.delivered) =
      statusesOf2 (deliveredTo o s.delivered))
    (hinv : dInv2 s) : dInv2 s' := by
  refine ⟨?_, fun o => ⟨?_, ?_, ?_⟩⟩
  · intro j2 h2
    obtain ⟨j1, hj1, hst⟩ := hjob j2 h2
    rw [hst]
    exact hinv.1 j1 hj1
  · rw [hdel o]
    exact (hinv.2 o).1
  · rw [hdel o]
    exact (hinv.2 o).2.1
  · intro j2 h2 x hx
    obtain ⟨j1, hj1, hst⟩ := hjob j2 h2
    rw [hst]
    rw [hdel o] at hx
    exact (hinv.2 o).2.2 j1 hj1 x hx

theorem dInv2_extend {s s' : Sys2} {j : Job2} (j' : Job2) (st : String)
    (hj : s.job = some j) (hj' : s'.job = some j') (hst : j'.status = st)
    (hfwd : fwdStr j.status st = true) (hchain : chainFwd st = true)
    (hext : ∀ o : Nat, ∃ ys, statusesOf2 (deliveredTo o s'.delivered) =
      statusesOf2 (deliveredTo o s.delivered) ++ ys ∧ ∀ y ∈ ys, y = st)
    (hinv : dInv2 s) : dInv2 s' := by
  refine ⟨?_, fun o => ?_⟩
  · intro j2 h2
    rw [hj'] at h2
    cases h2
    rw [hst]
    exact hchain
  · obtain ⟨ys, hys, hall⟩ := hext o
    have hold := hinv.2 o
    have hlaststep : ∀ x, (statusesOf2 (deliveredTo o s.delivered)).getLast? = some x →
        fwdStr x st = true := fun x hx => fwdStr_trans (hold.2.2 j hj x hx) hfwd
    refine ⟨?_, ?_, ?_⟩
    · rw [hys, List.chain'_append]
      refine ⟨hold.1, chain'_of_all_eq (fwdStr_refl st) hall, ?_⟩
      intro x hx y hy
      rw [head?_all_eq hall hy]
      exact hlaststep x (Option.mem_def.mp hx)
    · intro x hx
      rw [hys, List.mem_append] at hx
      rcases hx with hx | hx
      · exact hold.2.1 x hx
      · rw [hall x hx]
        exact hchain
    · intro j2 h2 x hx
      rw [hj'] at h2
      cases h2
      rw [hst]
      rw [hys] at hx
      cases hysc : ys with
      | nil =>
        rw [hysc, List.append_nil] at hx
        exact hlaststep x hx
      | cons y t =>
        rw [hysc, List.getLast?_append_of_ne_nil _ (List.cons_ne_nil y t)] at hx
        have hxst : x = st := hall x (hysc ▸ List.mem_of_mem_getLast? hx)
        rw [hxst]
        exact fwdStr_refl st

theorem step2_none_frame {s : Sys2} (h : s.job = none) (e : Ev2) :
    (step2 s e).job = none ∧ (step2 s e).delivered = s.delivered := by
  cases e <;> simp [step2, progressGet2, cleanupJob2, h]

theorem step2_dInv (s : Sys2) (e : Ev2) (hinv : dInv2 s) (hse : stderrOK e = true)
    (hnt : statusOf2 s = some "complete" → isTitleClose e = false) : dInv2 (step2 s e) := by
  cases hj : s.job with
  | none =>
    have hfr := step2_none_frame hj e
    apply dInv2_preserve ?_ ?_ hinv
    · intro j2 h2
      rw [hfr.1] at h2
      cases h2
    · intro o
      rw [hfr.2]
  | some j =>
    have hcf := hinv.1 j hj
    cases e with
    | launch =>
      apply dInv2_preserve ?_ ?_ hinv
      · intro j2 h2
        simp [step2, hj] at h2
        exact ⟨j, hj, by rw [← h2]⟩
      · intro o
        rw [show (step2 s Ev2.launch).delivered = s.delivered from by simp [step2, hj]]
    | titleClose =>
      have hnc : j.status ≠ "complete" := by
        intro hcmp
        have h1 : statusOf2 s = some "complete" := by
          simp only [statusOf2, hj, Option.map_some', hcmp]
        have h2 := hnt h1
        simp [isTitleClose] at h2
      refine dInv2_extend ({ j with status := "processing" }) "processing" hj ?_ rfl
        (fwdStr_to_processing hcf hnc) (by decide) ?_ hinv
      · simp [step2, hj, broadcast2]
      · intro o
        refine ⟨(s.listeners.filter (fun p => p == o)).map (fun _ => "processing"), ?_, ?_⟩
        · rw [show (step2 s Ev2.titleClose).delivered = s.delivered ++
              s.listeners.map (fun p => (p, Update2.statusProgress "processing" j.progress))
              from by simp [step2, hj, broadcast2]]
          rw [deliveredTo_append, statusesOf2_append, deliveredTo_map, statusesOf2_map_sp]
        · intro y hy
          rcases List.mem_map.mp hy with ⟨a, _, hay⟩
          exact hay.symm
    | stderrData chunk =>
      cases hm : matchProgress2 chunk.data with
      | none =>
        rw [show step2 s (Ev2.stderrData chunk) = s from by simp [step2, hj, hm]]
        exact hinv
      | some q =>
        have hle : q ≤ (90 : ℚ) := by
          simp only [stderrOK, hm, decide_eq_true_eq] at hse
          exact hse
        have hq : ¬ (q > (90 : ℚ)) := not_lt.mpr hle
        refine dInv2_extend ({ j with progress := q, status := j.status }) j.status hj ?_ rfl
          (fwdStr_refl j.status) hcf ?_ hinv
        · simp [step2, hj, hm, hq, broadcast2]
        · intro o
          refine ⟨(s.listeners.filter (fun p => p == o)).map (fun _ => j.status), ?_, ?_⟩
          · rw [show (step2 s (Ev2.stderrData chunk)).delivered = s.delivered ++
                s.listeners.map (fun p => (p, Update2.statusProgress j.status q))
                from by simp [step2, hj, hm, hq, broadcast2]]
            rw [deliveredTo_append, statusesOf2_append, deliveredTo_map, statusesOf2_map_sp]
          · intro y hy
            rcases List.mem_map.mp hy with ⟨a, _, hay⟩
            exact hay.symm
    | ytdlpError m =>
      apply dInv2_preserve ?_ ?_ hinv
      · intro j2 h2
        simp [step2, hj, broadcast2] at h2
        exact ⟨j, hj, by rw [← h2]⟩
      · intro o
        rw [show (step2 s (Ev2.ytdlpError m)).delivered = s.delivered ++
            s.listeners.map (fun p => (p, Update2.errorOnly m))
            from by simp [step2, hj, broadcast2]]
        rw [deliveredTo_append, statusesOf2_append, deliveredTo_map, statusesOf2_map_err,
          List.append_nil]
    | ffmpegError m =>
      apply dInv2_preserve ?_ ?_ hinv
      · intro j2 h2
        simp [step2, hj, broadcast2] at h2
        exact ⟨j, hj, by rw [← h2]⟩
      · intro o
        rw [show (step2 s (Ev2.ffmpegError m)).delivered = s.delivered ++
            s.listeners.map (fun p => (p, Update2.errorOnly m))
            from by simp [step2, hj, broadcast2]]
        rw [deliveredTo_append, statusesOf2_append, deliveredTo_map, statusesOf2_map_err,
          List.append_nil]
    | ffmpegClose c =>
      by_cases hc : c = some 0
      · refine dInv2_extend ({ j with status := "complete" }) "complete" hj ?_ rfl
          (fwdStr_to_complete j.status) (by decide) ?_ hinv
        · simp [step2, hj, hc, broadcast2]
        · intro o
          refine ⟨(s.listeners.filter (fun p => p == o)).map (fun _ => "complete"), ?_, ?_⟩
          · rw [show (step2 s (Ev2.ffmpegClose c)).delivered = s.delivered ++
                s.listeners.map (fun p => (p, Update2.statusOnly "complete"))
                from by simp [step2, hj, hc, broadcast2]]
            rw [deliveredTo_append, statusesOf2_append, deliveredTo_map, statusesOf2_map_so]
          · intro y hy
            rcases List.mem_map.mp hy with ⟨a, _, hay⟩
            exact hay.symm
      · apply dInv2_preserve ?_ ?_ hinv
        · intro j2 h2
          simp [step2, hj, hc, broadcast2] at h2
          exact ⟨j, hj, by rw [← h2]⟩
        · intro o
          rw [show (step2 s (Ev2.ffmpegClose c)).delivered = s.delivered ++
              s.listeners.map (fun p =>
                (p, Update2.errorOnly ("Failed with code " ++ codeStr c)))
              from by simp [step2, hj, hc, broadcast2]]
          rw [deliveredTo_append, statusesOf2_append, deliveredTo_map, statusesOf2_map_err,
            List.append_nil]
    | subscribe o2 =>
      refine dInv2_extend j j.status hj ?_ rfl (fwdStr_refl j.status) hcf ?_ hinv
      · simp [step2, progressGet2, hj]
      · intro o
        have hdel : (step2 s (Ev2.subscribe o2)).delivered = s.delivered ++
            [(o2, Update2.snapshot j.status j.progress j.error)] := by
          simp [step2, progressGet2, hj]
        by_cases ho : o2 = o
        · refine ⟨[j.status], ?_, ?_⟩
          · rw [hdel, deliveredTo_append, statusesOf2_append, ho, deliveredTo_single_eq]
            rfl
          · intro y hy
            have : y = j.status := by simpa using hy
            exact this
        · refine ⟨[], ?_, ?_⟩
          · rw [hdel, deliveredTo_append, statusesOf2_append, deliveredTo_single_ne ho]
            simp [statusesOf2]
          · intro y hy
            simp at hy
    | progressClose o2 =>
      by_cases hcl : (j.status == "complete" || j.error.isSome) = true
      · apply dInv2_preserve ?_ ?_ hinv
        · intro j2 h2
          rw [show (step2 s (Ev2.progressClose o2)).job = none from by
            simp [step2, hj, hcl, cleanupJob2_job]] at h2
          cases h2
        · intro o
          rw [show (step2 s (Ev2.progressClose o2)).delivered = s.delivered from by
            simp [step2, hj, hcl, cleanupJob2]]
      · apply dInv2_preserve ?_ ?_ hinv
        · intro j2 h2
          simp [step2, hj, hcl] at h2
          exact ⟨j, hj, by rw [← h2]⟩
        · intro o
          rw [show (step2 s (Ev2.progressClose o2)).delivered = s.delivered from by
            simp [step2, hj, hcl]]
    | downloadClose =>
      apply dInv2_preserve ?_ ?_ hinv
      · intro j2 h2
        rw [show (step2 s Ev2.downloadClose).job = none from cleanupJob2_job s] at h2
        cases h2
      · intro o
        rw [show (step2 s Ev2.downloadClose).delivered = s.delivered from by
          simp [step2, cleanupJob2, hj]]
    | cleanupTimer =>
      apply dInv2_preserve ?_ ?_ hinv
      · intro j2 h2
        rw [show (step2 s Ev2.cleanupTimer).job = none from cleanupJob2_job s] at h2
        cases h2
      · intro o
        rw [show (step2 s Ev2.cleanupTimer).delivered = s.delivered from by
          simp [step2, cleanupJob2, hj]]

theorem run2_dInv : ∀ (evs : List Ev2) (s : Sys2), dInv2 s →
    evs.all stderrOK = true → noLateTitle evs = true →
    (statusOf2 s = some "complete" → evs.all (fun e => !(isTitleClose e)) = true) →
    dInv2 (run2 s evs) := by
  intro evs
  induction evs with
  | nil => exact fun s hinv _ _ _ => hinv
  | cons e evs ih =>
    intro s hinv hse hnlt hcomp
    rw [List.all_cons, Bool.and_eq_true] at hse
    have hnt : statusOf2 s = some "complete" → isTitleClose e = false := by
      intro hc
      have := hcomp hc
      rw [List.all_cons, Bool.and_eq_true] at this
      simpa using this.1
    have hfacts := step2_status_facts s e hinv.1 hse.1 hnt
    have hcomp' : statusOf2 (step2 s e) = some "complete" →
        evs.all (fun x => !(isTitleClose x)) = true := by
      intro hc2
      rcases hfacts.2.2 hc2 with hc1 | hcl0
      · have := hcomp hc1
        rw [List.all_cons, Bool.and_eq_true] at this
        exact this.2
      · subst hcl0
        have h' : (if (some 0 : Option Int) = some 0 then
            evs.all (fun x => !(isTitleClose x)) else noLateTitle evs) = true := hnlt
        rwa [if_pos rfl] at h'
    exact ih (step2 s e) (step2_dInv s e hinv hse.1 hnt) hse.2 (noLateTitle_tail hnlt) hcomp'

/-- C1 as amended: in variant 2, provided the title-resolution process
closes before the transform process succeeds and no parsed progress value
exceeds 90, (a) the observable status only moves forward along the chain
`initializing → processing → complete` — every status in the trace is one
of these three (so `downloading`, `failed` and `almost ready` are never
assigned) and each step keeps the rank non-decreasing with `complete`
terminal — and (b) every observer's sequence of delivered statuses
(snapshot and live updates alike) likewise stays on the chain and moves
only forward, so no observer is ever shown a transition out of the
terminal state.  Without those two provisos the title-close handler can
leave `complete` for `processing` and a progress report above 90
introduces the off-chain status `"almost ready"`. -/
theorem C1_status_forward_chain :
    ∀ evs : List Ev2, evs.all stderrOK = true → noLateTitle evs = true →
      (List.Chain' (fun a b => fwd2 a b = true) (statusTrace2 init2 evs) ∧
        ∀ a ∈ statusTrace2 init2 evs, a.all chainFwd = true) ∧
      (∀ o : Nat,
        List.Chain' (fun a b => fwdStr a b = true)
          (statusesOf2 (deliveredTo o (run2 init2 evs).delivered)) ∧
        ∀ x ∈ statusesOf2 (deliveredTo o (run2 init2 evs).delivered), chainFwd x = true) := by
  intro evs h1 h2
  have hgood : ∀ j, init2.job = some j → chainFwd j.status = true := by
    intro j hj
    cases hj
    decide
  have hcompl : statusOf2 init2 = some "complete" →
      evs.all (fun e => !(isTitleClose e)) = true := by
    intro hc
    simp [statusOf2, init2] at hc
  refine ⟨C1_aux evs init2 hgood h1 h2 hcompl, ?_⟩
  have hinv0 : dInv2 init2 := by
    refine ⟨hgood, fun o => ⟨?_, ?_, ?_⟩⟩
    · simp [init2, deliveredTo, statusesOf2]
    · intro x hx
      simp [init2, deliveredTo, statusesOf2] at hx
    · intro j hj x hx
      simp [init2, deliveredTo, statusesOf2] at hx
  have hrun := run2_dInv evs init2 hinv0 h1 h2 hcompl
  exact fun o => ⟨(hrun.2 o).1, (hrun.2 o).2.1⟩

/-- Witness for C1 as amended: a full well-behaved run — launch, subscribe,
title resolution, a 50% progress report, successful transform exit,
deferred cleanup — has a forward on-chain status trace, and the subscribed
observer's delivered status sequence is forward and on-chain. -/
theorem C1_status_forward_chain_witness :
    (List.Chain' (fun a b => fwd2 a b = true)
      (statusTrace2 init2 [Ev2.launch, Ev2.subscribe 0, Ev2.titleClose,
        Ev2.stderrData "[download] 50.0%", Ev2.ffmpegClose (some 0), Ev2.cleanupTimer]) ∧
      ∀ a ∈ statusTrace2 init2 [Ev2.launch, Ev2.subscribe 0, Ev2.titleClose,
        Ev2.stderrData "[download] 50.0%", Ev2.ffmpegClose (some 0), Ev2.cleanupTimer],
        a.all chainFwd = true) ∧
    (∀ o : Nat,
      List.Chain' (fun a b => fwdStr a b = true)
        (statusesOf2 (deliveredTo o (run2 init2 [Ev2.launch, Ev2.subscribe 0, Ev2.titleClose,
          Ev2.stderrData "[download] 50.0%", Ev2.ffmpegClose (some 0),
          Ev2.cleanupTimer]).delivered)) ∧
      ∀ x ∈ statusesOf2 (deliveredTo o (run2 init2 [Ev2.launch, Ev2.subscribe 0,
          Ev2.titleClose, Ev2.stderrData "[download] 50.0%", Ev2.ffmpegClose (some 0),
          Ev2.cleanupTimer]).delivered), chainFwd x = true) :=
  C1_status_forward_chain
    [Ev2.launch, Ev2.subscribe 0, Ev2.titleClose, Ev2.stderrData "[download] 50.0%",
     Ev2.ffmpegClose (some 0), Ev2.cleanupTimer] (by decide) (by decide)
